import Mathlib

/-!
# Verification of the Opperator managed-process runtime core

A shallow embedding, in Lean 4, of the Python runtime core found in
`templates/python-base/opperator/` (files `protocol.py`, `agent.py`,
`lifecycle.py`), together with theorems settling the frozen claims about
the natural-language specification of that code.

Modelling conventions:
* Python values that can flow through the protocol / argument machinery
  (`Any` in the source annotations) are modelled by the inductive `PyVal`
  covering exactly the JSON-representable Python values `None`, `bool`,
  `int`, `float`, `str`, `list`, `dict`.
* Python `float` is modelled as `Rat` (the exact value of the IEEE double);
  the special values nan/inf are outside the model.  The operations the
  source uses on floats (`is_integer`, truncation by `int()`, zero tests)
  agree with this model on every finite double.
* Python `dict` is modelled as an insertion-ordered association list with
  string keys; assignment `d[k] = v` replaces in place or appends
  (`PyVal.insert`), mirroring CPython dict semantics.
* Python exceptions that the source distinguishes (`ValueError`,
  `TypeError`, `KeyError`, `AttributeError`, `json.JSONDecodeError`) are
  modelled by `PyErr`; fallible code returns `Except PyErr _`.
* Python `str` methods are modelled on Lean `String` with ASCII semantics
  (`Char.toLower`, `Char.isWhitespace`, `Char.isAlphanum`), the standard
  shallow-embedding choice for the ASCII data this protocol carries.
-/

/-! ## Python values -/

/-- The JSON-representable Python values (the `Any` payloads of the wire
protocol and of the argument coercion engine). -/
inductive PyVal where
  | none : PyVal
  | bool (b : Bool) : PyVal
  | int (z : Int) : PyVal
  | float (q : Rat) : PyVal
  | str (s : String) : PyVal
  | list (xs : List PyVal) : PyVal
  | dict (kvs : List (String × PyVal)) : PyVal
deriving Inhabited

/-- Python exception classes distinguished by the source code. -/
inductive PyErr where
  | valueError (msg : String) : PyErr
  | typeError (msg : String) : PyErr
  | keyError (key : String) : PyErr
  | attributeError (msg : String) : PyErr
deriving Repr, DecidableEq, Inhabited

namespace PyErr

/-- `str(exc)` on a modelled exception.  For `KeyError` CPython prints the
repr of the key. -/
def message : PyErr → String
  | .valueError m => m
  | .typeError m => m
  | .keyError k => "'" ++ k ++ "'"
  | .attributeError m => m

end PyErr

namespace PyVal

/-- First-match lookup in a modelled dict.  CPython dicts are duplicate-free,
so first-match agrees with dict lookup on every dict the runtime builds. -/
def lookup (kvs : List (String × PyVal)) (k : String) : Option PyVal :=
  match kvs with
  | [] => Option.none
  | (k', v) :: rest => if k' = k then some v else lookup rest k

/-- Whether a modelled dict binds key `k` (Python `k in d`). -/
def hasKey (kvs : List (String × PyVal)) (k : String) : Bool :=
  (lookup kvs k).isSome

/-- Python dict assignment `d[k] = v`: replace in place if the key exists,
else append (CPython insertion-order semantics). -/
def insert (kvs : List (String × PyVal)) (k : String) (v : PyVal) :
    List (String × PyVal) :=
  match kvs with
  | [] => [(k, v)]
  | (k', v') :: rest =>
    if k' = k then (k', v) :: rest else (k', v') :: insert rest k v

/-- Python truthiness (`bool(v)`). -/
def truthy : PyVal → Bool
  | .none => false
  | .bool b => b
  | .int z => z ≠ 0
  | .float q => q ≠ 0
  | .str s => s ≠ ""
  | .list xs => !xs.isEmpty
  | .dict kvs => !kvs.isEmpty

/-- The numeric value of a Python number (`bool` counts as `0`/`1`,
as in CPython where `bool` is a subclass of `int`). -/
def asNum? : PyVal → Option Rat
  | .bool b => some (if b then 1 else 0)
  | .int z => some (z : Rat)
  | .float q => some q
  | _ => Option.none

end PyVal

theorem PyVal.sizeOf_lookup {kvs : List (String × PyVal)} {k : String}
    {w : PyVal} (h : PyVal.lookup kvs k = some w) : sizeOf w < sizeOf kvs := by
  induction kvs with
  | nil => simp [PyVal.lookup] at h
  | cons kv rest ih =>
    obtain ⟨k', v'⟩ := kv
    simp only [PyVal.lookup] at h
    split at h
    · cases h
      simp
      omega
    · have := ih h
      simp
      omega

mutual

/-- Python `==` on modelled values: numeric cross-type equality
(`1 == 1.0 == True`), structural equality elsewhere; dicts compare
order-insensitively (modelled on the duplicate-free dicts the runtime
builds, by length plus pointwise containment). -/
def pyEq : PyVal → PyVal → Bool
  | .str a, .str b => a = b
  | .none, .none => true
  | .list a, .list b => pyEqList a b
  | .dict a, .dict b => a.length = b.length && pyEqDictSub a b
  | a, b =>
    match a.asNum?, b.asNum? with
    | some x, some y => x = y
    | _, _ => false
termination_by a b => sizeOf a + sizeOf b
decreasing_by all_goals (simp_wf; try omega)

def pyEqList : List PyVal → List PyVal → Bool
  | [], [] => true
  | x :: xs, y :: ys => pyEq x y && pyEqList xs ys
  | _, _ => false
termination_by a b => sizeOf a + sizeOf b
decreasing_by all_goals (simp_wf; try omega)

def pyEqDictSub : List (String × PyVal) → List (String × PyVal) → Bool
  | [], _ => true
  | (k, v) :: rest, b =>
    (match h : PyVal.lookup b k with
     | some w => pyEq v w
     | Option.none => false) && pyEqDictSub rest b
termination_by a b => sizeOf a + sizeOf b
decreasing_by
  all_goals simp_wf
  all_goals try omega
  all_goals (have hsz := PyVal.sizeOf_lookup h; omega)

end

/-! ## Python string helpers (ASCII model) -/

/-- `str.strip()` (no arguments): remove leading and trailing whitespace. -/
def pyStrip (s : String) : String :=
  ⟨(s.data.dropWhile Char.isWhitespace).reverse.dropWhile Char.isWhitespace
      |>.reverse⟩

/-- `str.lower()` (ASCII model). -/
def pyLower (s : String) : String := ⟨s.data.map Char.toLower⟩

/-- `str.lstrip('/')`. -/
def pyLstripSlash (s : String) : String := ⟨s.data.dropWhile (· = '/')⟩

/-- `str.strip('_')`. -/
def pyStripUnderscore (s : String) : String :=
  ⟨(s.data.dropWhile (· = '_')).reverse.dropWhile (· = '_') |>.reverse⟩

/-- Render an integer the way Python's `str()` does. -/
def pyIntStr (z : Int) : String := toString z

/-- Render a float the way Python's `repr` does for the simple decimal
values this runtime meets (`1.5 → "1.5"`, `1.0 → "1.0"`); values whose
denominator is not of the form `2^a * 5^b` cannot arise from an IEEE double
and are rendered as a fraction. -/
def pyFloatStr (q : Rat) : String :=
  let sign := if q < 0 then "-" else ""
  let q' := |q|
  let ip := q'.floor
  let frac := q' - (ip : Rat)
  -- longest possible decimal expansion of a double is bounded; 70 digits
  -- suffice for the exact values this model manipulates
  let rec digits (f : Rat) (fuel : Nat) : String :=
    match fuel with
    | 0 => ""
    | fuel + 1 =>
      if f = 0 then ""
      else
        let f10 := f * 10
        let d := f10.floor
        (toString d) ++ digits (f10 - (d : Rat)) fuel
  let ds := digits frac 70
  sign ++ toString ip ++ "." ++ (if ds = "" then "0" else ds)

mutual

/-- Python `repr()` of a modelled value (used inside `str()` of containers
and in error messages interpolating lists). -/
def pyRepr : PyVal → String
  | .none => "None"
  | .bool b => if b then "True" else "False"
  | .int z => pyIntStr z
  | .float q => pyFloatStr q
  | .str s => "'" ++ s ++ "'"
  | .list xs => "[" ++ pyReprSep xs ++ "]"
  | .dict kvs => "\x7b" ++ pyReprDictSep kvs ++ "\x7d"

def pyReprSep : List PyVal → String
  | [] => ""
  | [x] => pyRepr x
  | x :: rest => pyRepr x ++ ", " ++ pyReprSep rest

def pyReprDictSep : List (String × PyVal) → String
  | [] => ""
  | [(k, v)] => "'" ++ k ++ "': " ++ pyRepr v
  | (k, v) :: rest => "'" ++ k ++ "': " ++ pyRepr v ++ ", " ++ pyReprDictSep rest

end

/-- Python `str()` of a modelled value. -/
def pyStr : PyVal → String
  | .none => "None"
  | .bool b => if b then "True" else "False"
  | .int z => pyIntStr z
  | .float q => pyFloatStr q
  | .str s => s
  | .list xs => pyRepr (.list xs)
  | .dict kvs => pyRepr (.dict kvs)

/-- Python type name, as it appears in CPython error messages. -/
def pyTypeName : PyVal → String
  | .none => "NoneType"
  | .bool _ => "bool"
  | .int _ => "int"
  | .float _ => "float"
  | .str _ => "str"
  | .list _ => "list"
  | .dict _ => "dict"

/-! ## `int(s, 10)` and `float(s)` -/

/-- Accumulate the base-10 value of a digit run; a single `'_'` is allowed
between digits, as in CPython's integer literals. -/
def pyDigitsGo (acc : Nat) : List Char → Option Nat
  | [] => some acc
  | c :: rest =>
    if c = '_' then
      match rest with
      | c2 :: rest2 =>
        if c2.isDigit then pyDigitsGo (acc * 10 + (c2.toNat - 48)) rest2
        else Option.none
      | [] => Option.none
    else if c.isDigit then pyDigitsGo (acc * 10 + (c.toNat - 48)) rest
    else Option.none

/-- Parse a non-empty run of base-10 digits (with CPython underscore
grouping). -/
def pyDigitsVal : List Char → Option Nat
  | [] => Option.none
  | c :: rest =>
    if c.isDigit then pyDigitsGo (c.toNat - 48) rest else Option.none

/-- CPython `int(s, 10)`: optional surrounding whitespace, optional sign,
then base-10 digits; anything else raises
`ValueError: invalid literal for int() with base 10: ...`. -/
def pyIntOfString (s : String) : Except PyErr Int :=
  let err : PyErr :=
    .valueError ("invalid literal for int() with base 10: " ++ pyRepr (.str s))
  let cs := (pyStrip s).data
  match cs with
  | '-' :: rest =>
    match pyDigitsVal rest with
    | some n => .ok (-(n : Int))
    | Option.none => .error err
  | '+' :: rest =>
    match pyDigitsVal rest with
    | some n => .ok (n : Int)
    | Option.none => .error err
  | _ =>
    match pyDigitsVal cs with
    | some n => .ok (n : Int)
    | Option.none => .error err

/-- Digit-run parser for floats: returns value and number of digits consumed
together with the remaining input. -/
def pyFracDigits : List Char → Nat × Nat × List Char
  | c :: rest =>
    if c.isDigit then
      let (v, n, r) := pyFracDigits rest
      (v + (c.toNat - 48) * 10 ^ n, n + 1, r)
    else (0, 0, c :: rest)
  | [] => (0, 0, [])

/-- CPython `float(s)` on the decimal literals this runtime meets:
optional sign, digits, optional fraction, optional exponent.  The special
spellings `inf`/`nan` are outside the model (`float` is modelled as `Rat`).
The modelled value is the exact decimal value; CPython rounds it to the
nearest double. -/
def pyFloatOfString (s : String) : Except PyErr Rat :=
  let err : PyErr :=
    .valueError ("could not convert string to float: " ++ pyRepr (.str s))
  let cs := (pyStrip s).data
  let (neg, cs) :=
    match cs with
    | '-' :: rest => (true, rest)
    | '+' :: rest => (false, rest)
    | _ => (false, cs)
  let (ip, ipn, cs) := pyFracDigits cs
  let (fv, fn, cs, fracPresent) :=
    match cs with
    | '.' :: rest =>
      let (v, n, r) := pyFracDigits rest
      (v, n, r, true)
    | _ => (0, 0, cs, false)
  if ipn = 0 ∧ fn = 0 then .error err
  else
    let mant : Rat := (ip : Rat) + (fv : Rat) / (10 ^ fn : Nat)
    let expPart : Except PyErr Rat :=
      match cs with
      | [] => .ok 1
      | 'e' :: rest | 'E' :: rest =>
        let (eneg, rest) :=
          match rest with
          | '-' :: r => (true, r)
          | '+' :: r => (false, r)
          | _ => (false, rest)
        match rest with
        | [] => .error err
        | _ =>
          let (ev, en, r) := pyFracDigits rest
          if en = 0 ∨ ¬r.isEmpty then .error err
          else .ok (if eneg then 1 / (10 ^ ev : Nat) else ((10 ^ ev : Nat) : Rat))
      | _ => .error err
    match expPart with
    | .error e => .error e
    | .ok m =>
      if fracPresent = false ∧ ipn = 0 then .error err
      else .ok ((if neg then -1 else 1) * mant * m)

/-! ## `json.loads` -/

/-- JSON whitespace skipping. -/
def jsonSkipWs (cs : List Char) : List Char :=
  cs.dropWhile fun c => c = ' ' || c = '\t' || c = '\n' || c = '\r'

/-- Hex digit value. -/
def hexVal (c : Char) : Option Nat :=
  if c.isDigit then some (c.toNat - 48)
  else if 'a' ≤ c ∧ c ≤ 'f' then some (c.toNat - 87)
  else if 'A' ≤ c ∧ c ≤ 'F' then some (c.toNat - 55)
  else Option.none

/-- Parse a JSON string body (the opening quote already consumed). -/
def jsonParseStringGo (acc : List Char) : List Char → Option (String × List Char)
  | [] => Option.none
  | '"' :: rest => some (⟨acc.reverse⟩, rest)
  | '\\' :: e :: rest =>
    match e with
    | '"' => jsonParseStringGo ('"' :: acc) rest
    | '\\' => jsonParseStringGo ('\\' :: acc) rest
    | '/' => jsonParseStringGo ('/' :: acc) rest
    | 'b' => jsonParseStringGo ('\x08' :: acc) rest
    | 'f' => jsonParseStringGo ('\x0c' :: acc) rest
    | 'n' => jsonParseStringGo ('\n' :: acc) rest
    | 'r' => jsonParseStringGo ('\r' :: acc) rest
    | 't' => jsonParseStringGo ('\t' :: acc) rest
    | 'u' =>
      match rest with
      | h1 :: h2 :: h3 :: h4 :: rest' =>
        match hexVal h1, hexVal h2, hexVal h3, hexVal h4 with
        | some a, some b, some c, some d =>
          let n := ((a * 16 + b) * 16 + c) * 16 + d
          if h : n.isValidChar then
            jsonParseStringGo (Char.ofNatAux n h :: acc) rest'
          else jsonParseStringGo ('�' :: acc) rest'
        | _, _, _, _ => Option.none
      | _ => Option.none
    | _ => Option.none
  | c :: rest => jsonParseStringGo (c :: acc) rest

/-- Parse a JSON number starting at `cs`; integer literals decode to Python
`int`, fractional/exponent literals to `float`. -/
def jsonParseNumber (cs : List Char) : Option (PyVal × List Char) :=
  let (neg, cs1) :=
    match cs with
    | '-' :: rest => (true, rest)
    | _ => (false, cs)
  let (ip, ipn, cs2) := pyFracDigits cs1
  if ipn = 0 then Option.none
  else
    let (fv, fn, cs3, hasFrac) :=
      match cs2 with
      | '.' :: rest =>
        let (v, n, r) := pyFracDigits rest
        (v, n, r, true)
      | _ => (0, 0, cs2, false)
    if hasFrac ∧ fn = 0 then Option.none
    else
      let (ev, en, cs4, hasExp, eneg) :=
        match cs3 with
        | 'e' :: rest | 'E' :: rest =>
          let (eneg, rest') :=
            match rest with
            | '-' :: r => (true, r)
            | '+' :: r => (false, r)
            | _ => (false, rest)
          let (v, n, r) := pyFracDigits rest'
          (v, n, r, true, eneg)
        | _ => (0, 0, cs3, false, false)
      if hasExp ∧ en = 0 then Option.none
      else if ¬hasFrac ∧ ¬hasExp then
        some (.int (if neg then -(ip : Int) else (ip : Int)), cs2)
      else
        let mant : Rat := (ip : Rat) + (fv : Rat) / ((10 ^ fn : Nat) : Rat)
        let ex : Rat :=
          if ¬hasExp then 1
          else if eneg then 1 / ((10 ^ ev : Nat) : Rat)
          else ((10 ^ ev : Nat) : Rat)
        some (.float ((if neg then -1 else 1) * mant * ex), cs4)

mutual

/-- Fueled JSON value parser (recursive descent); `fuel` bounds nesting and
is instantiated with the input length, which every nesting level strictly
consumes. -/
def jsonParseVal (fuel : Nat) (cs : List Char) : Option (PyVal × List Char) :=
  match fuel with
  | 0 => Option.none
  | fuel + 1 =>
    let cs := jsonSkipWs cs
    match cs with
    | '"' :: rest =>
      match jsonParseStringGo [] rest with
      | some (s, r) => some (.str s, r)
      | Option.none => Option.none
    | 'n' :: 'u' :: 'l' :: 'l' :: rest => some (.none, rest)
    | 't' :: 'r' :: 'u' :: 'e' :: rest => some (.bool true, rest)
    | 'f' :: 'a' :: 'l' :: 's' :: 'e' :: rest => some (.bool false, rest)
    | '[' :: rest =>
      match jsonSkipWs rest with
      | ']' :: r => some (.list [], r)
      | _ =>
        match jsonParseElems fuel rest with
        | some (vs, r) => some (.list vs, r)
        | Option.none => Option.none
    | '{' :: rest =>
      match jsonSkipWs rest with
      | '}' :: r => some (.dict [], r)
      | _ =>
        match jsonParseMembers fuel rest with
        | some (kvs, r) => some (.dict kvs, r)
        | Option.none => Option.none
    | _ => jsonParseNumber cs

/-- Parse the elements of a non-empty JSON array (after the `'['`). -/
def jsonParseElems (fuel : Nat) (cs : List Char) : Option (List PyVal × List Char) :=
  match fuel with
  | 0 => Option.none
  | fuel + 1 =>
    match jsonParseVal fuel cs with
    | Option.none => Option.none
    | some (v, r) =>
      match jsonSkipWs r with
      | ',' :: r2 =>
        match jsonParseElems fuel r2 with
        | some (vs, r3) => some (v :: vs, r3)
        | Option.none => Option.none
      | ']' :: r2 => some ([v], r2)
      | _ => Option.none

/-- Parse the members of a non-empty JSON object (after the `'{'`).
Duplicate keys are kept in order (CPython keeps the last; the runtime never
sends duplicate keys). -/
def jsonParseMembers (fuel : Nat) (cs : List Char) :
    Option (List (String × PyVal) × List Char) :=
  match fuel with
  | 0 => Option.none
  | fuel + 1 =>
    match jsonSkipWs cs with
    | '"' :: rest =>
      match jsonParseStringGo [] rest with
      | Option.none => Option.none
      | some (k, r1) =>
        match jsonSkipWs r1 with
        | ':' :: r2 =>
          match jsonParseVal fuel r2 with
          | Option.none => Option.none
          | some (v, r3) =>
            match jsonSkipWs r3 with
            | ',' :: r4 =>
              match jsonParseMembers fuel r4 with
              | some (kvs, r5) => some ((k, v) :: kvs, r5)
              | Option.none => Option.none
            | '}' :: r4 => some ([(k, v)], r4)
            | _ => Option.none
        | _ => Option.none
    | _ => Option.none

end

/-- `json.loads`: parse one JSON document, requiring only trailing
whitespace after it.  The error payload stands for `json.JSONDecodeError`
(the CPython message carries position information not modelled here). -/
def jsonLoads (s : String) : Except String PyVal :=
  match jsonParseVal (s.length + 1) s.data with
  | some (v, rest) =>
    if (jsonSkipWs rest).isEmpty then .ok v else .error "Extra data"
  | Option.none => .error "Expecting value"

/-! ## A weight measure on values

`pyWeight` decreases along every recursive call the coercion engine makes:
strings weigh more than any value their JSON text can denote, and container
members weigh less than the container. -/

mutual

def pyWeight : PyVal → Nat
  | .none => 1
  | .bool _ => 1
  | .int _ => 1
  | .float _ => 1
  | .str s => 1 + s.length
  | .list xs => 1 + pyWeightList xs
  | .dict kvs => 1 + pyWeightDict kvs
termination_by v => sizeOf v
decreasing_by all_goals (simp_wf; try omega)

def pyWeightList : List PyVal → Nat
  | [] => 0
  | x :: rest => pyWeight x + pyWeightList rest
termination_by xs => sizeOf xs
decreasing_by all_goals (simp_wf; try omega)

def pyWeightDict : List (String × PyVal) → Nat
  | [] => 0
  | (_, v) :: rest => 1 + pyWeight v + pyWeightDict rest
termination_by kvs => sizeOf kvs
decreasing_by all_goals (simp_wf; try omega)

end

theorem pyWeight_pos (v : PyVal) : 1 ≤ pyWeight v := by
  cases v <;> simp [pyWeight] <;> omega

theorem pyWeightList_cons (x : PyVal) (rest : List PyVal) :
    pyWeightList (x :: rest) = pyWeight x + pyWeightList rest := by
  simp [pyWeightList]

theorem pyWeight_lookup {kvs : List (String × PyVal)} {k : String}
    {w : PyVal} (h : PyVal.lookup kvs k = some w) :
    pyWeight w < pyWeightDict kvs := by
  induction kvs with
  | nil => simp [PyVal.lookup] at h
  | cons kv rest ih =>
    obtain ⟨k', v'⟩ := kv
    simp only [PyVal.lookup] at h
    split at h
    · cases h
      simp [pyWeightDict]
      omega
    · have := ih h
      simp [pyWeightDict]
      omega

/-! ## The argument coercion engine (`agent.py::_coerce_argument_value`) -/

/-- `value is None`. -/
def PyVal.isNone : PyVal → Bool
  | .none => true
  | _ => false

/-- `(arg_type or "string").lower()`: resolve the type tag the way the
source does (a falsy tag defaults to `"string"`, a truthy non-string tag
raises `AttributeError` at `.lower()`). -/
def resolveArgType (argType : PyVal) : Except PyErr String :=
  let base := if argType.truthy then argType else .str "string"
  match base with
  | .str s => .ok (pyLower s)
  | v =>
    .error (.attributeError
      ("'" ++ pyTypeName v ++ "' object has no attribute 'lower'"))

/-- The pass that preserves input keys not produced by property coercion:
`for key, val in obj.items(): if key not in coerced_obj: coerced_obj[key] = val`. -/
def objPassthrough (acc : List (String × PyVal)) :
    List (String × PyVal) → List (String × PyVal)
  | [] => acc
  | (k, v) :: rest =>
    if PyVal.hasKey acc k then objPassthrough acc rest
    else objPassthrough (PyVal.insert acc k v) rest

theorem coerceItems_measure_head (i : PyVal) (r : List PyVal) :
    4 * pyWeight i + 3 < 4 * (1 + pyWeightList (i :: r)) + 1 := by
  have := pyWeight_pos i
  simp [pyWeightList]
  omega

theorem coerceItems_measure_tail (i : PyVal) (r : List PyVal) :
    4 * (1 + pyWeightList r) + 1 < 4 * (1 + pyWeightList (i :: r)) + 1 := by
  have := pyWeight_pos i
  simp [pyWeightList]
  omega

mutual

/-- `OpperatorAgent._coerce_argument_value(arg_type, value, items, properties)`.
The `items`/`properties` parameters carry the raw schema dicts (Python
passes `None` when absent, modelled as `.none`). -/
def coerceArgumentValue (argType : PyVal) (value : PyVal) (items : PyVal)
    (properties : PyVal) : Except PyErr PyVal :=
  if value.isNone then .ok .none
  else
    match resolveArgType argType with
    | .error e => .error e
    | .ok t =>
      if t = "string" then .ok (.str (pyStr value))
      else if t = "integer" then
        match value with
        | .bool _ =>
          .error (.valueError "Boolean value is not valid for integer argument")
        | .int z => .ok (.int z)
        | .float q =>
          if q.den = 1 then .ok (.int q.num)
          -- a non-integral float falls through to the final `return int(value)`,
          -- which truncates toward zero
          else .ok (.int (q.num.tdiv (q.den : Int)))
        | .str s =>
          match pyIntOfString s with
          | .ok z => .ok (.int z)
          | .error e => .error e
        | v =>
          .error (.typeError
            ("int() argument must be a string, a bytes-like object or a real number, not '"
              ++ pyTypeName v ++ "'"))
      else if t = "number" then
        match value with
        | .bool _ =>
          .error (.valueError "Boolean value is not valid for number argument")
        | .int z => .ok (.float (z : Rat))
        | .float q => .ok (.float q)
        | .str s =>
          match pyFloatOfString s with
          | .ok q => .ok (.float q)
          | .error e => .error e
        | v =>
          .error (.typeError
            ("float() argument must be a string or a real number, not '"
              ++ pyTypeName v ++ "'"))
      else if t = "boolean" then
        match value with
        | .bool b => .ok (.bool b)
        | .str s =>
          let lowered := pyLower (pyStrip s)
          if lowered = "true" ∨ lowered = "1" ∨ lowered = "yes" ∨ lowered = "on" then
            .ok (.bool true)
          else if lowered = "false" ∨ lowered = "0" ∨ lowered = "no" ∨ lowered = "off" then
            .ok (.bool false)
          else .error (.valueError ("Cannot interpret '" ++ s ++ "' as boolean"))
        | .int z => .ok (.bool (z ≠ 0))
        | .float q => .ok (.bool (q ≠ 0))
        | v => .error (.valueError ("Cannot interpret '" ++ pyStr v ++ "' as boolean"))
      else if t = "array" then
        match value with
        | .list xs => coerceArrayWithItems items xs
        | .str s =>
          match jsonLoads s with
          | .error emsg =>
            .error (.valueError ("Cannot interpret '" ++ s ++ "' as array: " ++ emsg))
          | .ok (.list arr) =>
            -- termination guard: a parsed JSON value always weighs at most the
            -- length of its text, so this test never fails at run time
            if h : pyWeightList arr + 1 ≤ s.length then
              coerceArrayWithItems items arr
            else .error (.valueError "Expected a list for array argument")
          | .ok _ => .error (.valueError "Expected a list for array argument")
        | _ => .error (.valueError "Expected a list for array argument")
      else if t = "object" then
        match value with
        | .dict kvs => coerceObjectWithProps properties kvs
        | .str s =>
          match jsonLoads s with
          | .error emsg =>
            .error (.valueError ("Cannot interpret '" ++ s ++ "' as object: " ++ emsg))
          | .ok (.dict obj) =>
            -- termination guard as in the array case; never fails at run time
            if h : pyWeightDict obj + 1 ≤ s.length then
              coerceObjectWithProps properties obj
            else .error (.valueError "Expected a mapping for object argument")
          | .ok _ => .error (.valueError "Expected a mapping for object argument")
        | _ => .error (.valueError "Expected a mapping for object argument")
      else .ok value
termination_by (4 * pyWeight value + 3, 0)
decreasing_by
  all_goals apply Prod.Lex.left
  all_goals simp [pyWeight]
  all_goals omega

/-- The array branch after the element list is in hand: validate and coerce
items when an `items` schema is given (`if items: ...`). -/
def coerceArrayWithItems (items : PyVal) (arr : List PyVal) :
    Except PyErr PyVal :=
  if items.truthy then
    match items with
    | .dict ikvs =>
      let itemType := (PyVal.lookup ikvs "type").getD (.str "string")
      let itemItems := (PyVal.lookup ikvs "items").getD .none
      let itemProps := (PyVal.lookup ikvs "properties").getD .none
      match coerceItems itemType itemItems itemProps 0 arr with
      | .ok coerced => .ok (.list coerced)
      | .error e => .error e
    | v =>
      .error (.attributeError
        ("'" ++ pyTypeName v ++ "' object has no attribute 'get'"))
  else .ok (.list arr)
termination_by (4 * (1 + pyWeightList arr) + 2, 0)
decreasing_by
  all_goals apply Prod.Lex.left
  all_goals omega

/-- `for idx, item in enumerate(arr)`: coerce each element, rewrapping a
`ValueError`/`TypeError` with the failing index. -/
def coerceItems (itemType itemItems itemProps : PyVal) (idx : Nat)
    (arr : List PyVal) : Except PyErr (List PyVal) :=
  match arr with
  | [] => .ok []
  | item :: rest =>
    match coerceArgumentValue itemType item itemItems itemProps with
    | .ok cv =>
      match coerceItems itemType itemItems itemProps (idx + 1) rest with
      | .ok cvs => .ok (cv :: cvs)
      | .error e => .error e
    | .error (.valueError m) =>
      .error (.valueError
        ("Array item at index " ++ toString idx ++ " is invalid: " ++ m))
    | .error (.typeError m) =>
      .error (.valueError
        ("Array item at index " ++ toString idx ++ " is invalid: " ++ m))
    | .error e => .error e
termination_by (4 * (1 + pyWeightList arr) + 1, 0)
decreasing_by
  all_goals apply Prod.Lex.left
  all_goals first
    | apply coerceItems_measure_head
    | apply coerceItems_measure_tail

/-- The object branch after the mapping is in hand: coerce declared
properties when a `properties` schema is given (`if properties: ...`),
then preserve undeclared input keys. -/
def coerceObjectWithProps (properties : PyVal) (obj : List (String × PyVal)) :
    Except PyErr PyVal :=
  if properties.truthy then
    match properties with
    | .dict pkvs =>
      match coerceProps pkvs obj [] with
      | .ok coerced => .ok (.dict (objPassthrough coerced obj))
      | .error e => .error e
    | v =>
      .error (.attributeError
        ("'" ++ pyTypeName v ++ "' object has no attribute 'items'"))
  else .ok (.dict obj)
termination_by (4 * (pyWeightDict obj + 1) + 2, 0)
decreasing_by
  all_goals apply Prod.Lex.left
  all_goals omega

/-- `for prop_name, prop_schema in properties.items()`: coerce each declared
property present in the input, error when a property marked required is
absent. -/
def coerceProps (props : List (String × PyVal)) (obj : List (String × PyVal))
    (acc : List (String × PyVal)) : Except PyErr (List (String × PyVal)) :=
  match props with
  | [] => .ok acc
  | (pname, pschema) :: rest =>
    match h : PyVal.lookup obj pname with
    | some pv =>
      match pschema with
      | .dict skvs =>
        let ptype := (PyVal.lookup skvs "type").getD (.str "string")
        let pitems := (PyVal.lookup skvs "items").getD .none
        let pprops := (PyVal.lookup skvs "properties").getD .none
        match coerceArgumentValue ptype pv pitems pprops with
        | .ok cv => coerceProps rest obj (PyVal.insert acc pname cv)
        | .error (.valueError m) =>
          .error (.valueError
            ("Object property '" ++ pname ++ "' is invalid: " ++ m))
        | .error (.typeError m) =>
          .error (.valueError
            ("Object property '" ++ pname ++ "' is invalid: " ++ m))
        | .error e => .error e
      | v =>
        .error (.attributeError
          ("'" ++ pyTypeName v ++ "' object has no attribute 'get'"))
    | Option.none =>
      match pschema with
      | .dict skvs =>
        if ((PyVal.lookup skvs "required").getD (.bool false)).truthy then
          .error (.valueError
            ("Object is missing required property '" ++ pname ++ "'"))
        else coerceProps rest obj acc
      | v =>
        .error (.attributeError
          ("'" ++ pyTypeName v ++ "' object has no attribute 'get'"))
termination_by (4 * (pyWeightDict obj + 1) + 1, props.length)
decreasing_by
  all_goals first
    | (apply Prod.Lex.left
       have := pyWeight_lookup h
       omega)
    | (apply Prod.Lex.right
       simp)

end

/-! ## Protocol data model (`protocol.py`) -/

/-- `copy.deepcopy`: in this value model object identity is not observable,
so a deep copy is the value itself (the never-alias-the-stored-default
property concerns mutation, outside a value semantics). -/
def pyDeepCopy (v : PyVal) : PyVal := v

/-- `protocol.py::CommandExposure`. -/
inductive CommandExposure where
  | agentTool
  | slashCommand
deriving Repr, DecidableEq, Inhabited

/-- The `.value` string of an exposure. -/
def CommandExposure.value : CommandExposure → String
  | .agentTool => "agent_tool"
  | .slashCommand => "slash_command"

/-- `CommandExposure(s)`: enum lookup by value. -/
def CommandExposure.ofString? (s : String) : Option CommandExposure :=
  if s = "agent_tool" then some .agentTool
  else if s = "slash_command" then some .slashCommand
  else Option.none

/-- `protocol.py::SlashCommandScope`. -/
inductive SlashCommandScope where
  | localScope
  | globalScope
deriving Repr, DecidableEq, Inhabited

/-- The `.value` string of a scope. -/
def SlashCommandScope.value : SlashCommandScope → String
  | .localScope => "local"
  | .globalScope => "global"

/-- One element of the `expose_as` field: either an enum member or a raw
string (both accepted by `_iter_exposures`/the exposure parser). -/
inductive ExpItem where
  | exposure (e : CommandExposure)
  | raw (s : String)
deriving Repr, DecidableEq, Inhabited

/-- The `expose_as` field value: the annotation says
`Optional[Sequence[CommandExposure]]`, and `_iter_exposures` additionally
accepts a bare enum member or string. -/
inductive ExposeAs where
  | single (item : ExpItem)
  | seq (items : List ExpItem)
deriving Repr, DecidableEq, Inhabited

/-- Python truthiness of an `expose_as` value (`if self.expose_as:`). -/
def ExposeAs.truthy : ExposeAs → Bool
  | .single (.exposure _) => true
  | .single (.raw s) => s ≠ ""
  | .seq l => !l.isEmpty

/-- `CommandDefinition._iter_exposures`. -/
def ExposeAs.iter : ExposeAs → List ExpItem
  | .single x => [x]
  | .seq l => l

/-- The `slash_scope` field value (`Optional[Union[str, SlashCommandScope]]`). -/
inductive ScopeInput where
  | strVal (s : String)
  | scope (sc : SlashCommandScope)
deriving Repr, DecidableEq, Inhabited

/-- `protocol.py::CommandArgument` (typed argument definition). -/
structure CommandArgument where
  name : String
  type : String := "string"
  description : Option String := none
  required : Bool := false
  default : PyVal := .none
  enum : Option (List PyVal) := none
  items : Option PyVal := none
  properties : Option PyVal := none
deriving Inhabited

/-- The valid type tags of `CommandArgument.normalized`. -/
def validArgTypes (t : String) : Bool :=
  t = "string" || t = "integer" || t = "number" || t = "boolean" ||
    t = "array" || t = "object"

/-- `CommandArgument.normalized`: raises `ValueError` on an empty name. -/
def CommandArgument.normalized (a : CommandArgument) :
    Except PyErr CommandArgument :=
  let name := pyStrip a.name
  if name = "" then .error (.valueError "argument name cannot be empty")
  else
    let argType := pyLower (pyStrip (if a.type = "" then "string" else a.type))
    let argType := if validArgTypes argType then argType else "string"
    let description :=
      let d := pyStrip (a.description.getD "")
      if d = "" then Option.none else some d
    let enum : Option (List PyVal) :=
      match a.enum with
      | some l =>
        if l.isEmpty then Option.none
        else
          let vals := l.filter (fun v => !v.isNone)
          if vals.isEmpty then Option.none else some vals
      | Option.none => Option.none
    .ok { a with
      name := name
      type := argType
      description := description
      required := a.required
      enum := enum }

/-- `CommandArgument.to_dict`: serialize with only non-default fields
present (each check is Python truthiness / `is not None`). -/
def CommandArgument.toDict (a : CommandArgument) : Except PyErr PyVal :=
  match a.normalized with
  | .error e => .error e
  | .ok n =>
    let d : List (String × PyVal) :=
      [("name", .str n.name), ("type", .str n.type)]
    let d := match n.description with
      | some s => if s ≠ "" then d ++ [("description", .str s)] else d
      | Option.none => d
    let d := if n.required then d ++ [("required", .bool true)] else d
    let d := if !n.default.isNone then d ++ [("default", n.default)] else d
    let d := match n.enum with
      | some l => if !l.isEmpty then d ++ [("enum", .list l)] else d
      | Option.none => d
    let d := match n.items with
      | some v => if v.truthy then d ++ [("items", v)] else d
      | Option.none => d
    let d := match n.properties with
      | some v => if v.truthy then d ++ [("properties", v)] else d
      | Option.none => d
    .ok (.dict d)

/-- One element of the `arguments` field: a `CommandArgument`, a dict of
constructor fields (which builds one), or anything else (skipped, as are
dicts whose keys do not match the constructor). -/
inductive ArgInput where
  | arg (a : CommandArgument)
  | dictArg (a : CommandArgument)
  | invalid
deriving Inhabited

/-- `protocol.py::CommandDefinition`. -/
structure CommandDefinition where
  name : String
  title : Option String := none
  description : Option String := none
  expose_as : Option ExposeAs := none
  slash_command : Option String := none
  slash_scope : Option ScopeInput := none
  argument_hint : Option String := none
  argument_required : Bool := false
  arguments : Option (List ArgInput) := none
  async_enabled : Bool := false
  progress_label : Option String := none
  hidden : Bool := false
deriving Inhabited

/-! ### `CommandDefinition._normalize_slash` -/

/-- The character class kept by the slash slug builder. -/
def slashKeepChar (c : Char) : Bool :=
  c.isAlphanum || c = '_' || c = '-' || c = ':'

/-- The slug-building loop of `_normalize_slash` (`acc` holds `cleaned`
reversed, so `acc.head?` is Python's `cleaned[-1]`). -/
def slashClean : List Char → List Char → List Char
  | [], acc => acc.reverse
  | c :: cs, acc =>
    if slashKeepChar c then slashClean cs (c.toLower :: acc)
    else if c.isWhitespace then
      if acc.isEmpty || acc.head? ≠ some '_' then slashClean cs ('_' :: acc)
      else slashClean cs acc
    else
      if !acc.isEmpty && acc.head? ≠ some '_' then slashClean cs ('_' :: acc)
      else slashClean cs acc

/-- `CommandDefinition._normalize_slash`. -/
def normalizeSlash (value : String) : String :=
  let candidate := pyLstripSlash (pyStrip value)
  let candidate := if candidate = "" then "command" else candidate
  let cleaned := slashClean candidate.data []
  let slug := pyStripUnderscore ⟨cleaned⟩
  let slug :=
    if slug = "" then
      pyLower ⟨candidate.data.map fun c => if c = ' ' then '_' else c⟩
    else slug
  "/" ++ slug

/-- `CommandDefinition._normalize_scope`. -/
def normalizeScope (value : Option ScopeInput) : String :=
  let trimmed :=
    match value with
    | some (.scope sc) => sc.value
    | some (.strVal s) => pyLower (pyStrip s)
    | Option.none => ""
  if trimmed = "global" then "global" else "local"

/-! ### `CommandDefinition._derive_title` -/

theorem length_dropWhile_le' (l : List Char) (p : Char → Bool) :
    (l.dropWhile p).length ≤ l.length :=
  (List.dropWhile_sublist p).length_le

/-- Separator characters collapsed to a space
(the `[_\x2d\x2e:]+` regex class). -/
def sepChar (c : Char) : Bool :=
  c = '_' || c = '-' || c = '.' || c = ':'

/-- `re.sub` of runs of separator characters with a single space. -/
def collapseSeps : List Char → List Char
  | [] => []
  | c :: cs =>
    if sepChar c then ' ' :: collapseSeps (cs.dropWhile sepChar)
    else c :: collapseSeps cs
termination_by cs => cs.length
decreasing_by
  · exact Nat.lt_of_le_of_lt (length_dropWhile_le' _ sepChar) (Nat.lt_succ_self _)
  · simp

/-- `re.sub` inserting a space at each lowercase/digit→uppercase boundary. -/
def camelSub : List Char → List Char
  | c1 :: c2 :: rest =>
    if (c1.isLower || c1.isDigit) && c2.isUpper then
      c1 :: ' ' :: c2 :: camelSub rest
    else c1 :: camelSub (c2 :: rest)
  | l => l

/-- `re.sub` splitting an uppercase run from a following capitalized word
(`HTTPServer → HTTP Server`). -/
def upperRunSplit (cs : List Char) : List Char :=
  match cs with
  | [] => []
  | c :: rest =>
    if c.isUpper then
      let run := rest.takeWhile Char.isUpper
      let after := rest.dropWhile Char.isUpper
      match h2 : after with
      | a :: rest' =>
        if !run.isEmpty && a.isLower then
          (c :: run).dropLast ++ ' ' :: (c :: run).getLast (by simp) :: a ::
            upperRunSplit rest'
        else (c :: run) ++ upperRunSplit after
      | [] => cs
    else c :: upperRunSplit rest
termination_by cs.length
decreasing_by
  · have h1 := length_dropWhile_le' rest Char.isUpper
    have h3 : List.dropWhile Char.isUpper rest = a :: rest' := h2
    rw [h3] at h1
    simp at h1 ⊢
    omega
  · have h1 := length_dropWhile_le' rest Char.isUpper
    simp
    omega
  · simp

/-- `str.split()` with no arguments: split on whitespace runs, dropping
empty fields. -/
def pySplit : List Char → List String
  | c :: cs =>
    if c.isWhitespace then pySplit cs
    else
      ⟨(c :: cs).takeWhile (fun x => !x.isWhitespace)⟩
        :: pySplit ((c :: cs).dropWhile fun x => !x.isWhitespace)
  | [] => []
termination_by cs => cs.length
decreasing_by
  · simp
  · rename_i h
    rw [List.dropWhile_cons]
    simp [h]
    exact Nat.lt_succ_of_le (length_dropWhile_le' _ _)

/-- `str.isdigit()` (ASCII model): non-empty and all digits. -/
def pyIsDigitStr (s : String) : Bool :=
  !s.data.isEmpty && s.data.all Char.isDigit

/-- `str.isupper()` (ASCII model): at least one cased character and every
cased character uppercase. -/
def pyIsUpperStr (s : String) : Bool :=
  s.data.any Char.isAlpha && s.data.all fun c => !c.isAlpha || c.isUpper

/-- `str.capitalize()` (ASCII model). -/
def pyCapitalize (s : String) : String :=
  match s.data with
  | [] => ""
  | c :: cs => ⟨c.toUpper :: cs.map Char.toLower⟩

/-- The per-word `transform` of `_derive_title`. -/
def deriveTitleTransform (word : String) : String :=
  let lower := pyLower word
  if pyIsDigitStr lower then lower
  else if 1 < word.length && pyIsUpperStr word then word
  else pyCapitalize lower

/-- `CommandDefinition._derive_title`. -/
def deriveTitle (name : String) : String :=
  let trimmed := pyStrip name
  if trimmed = "" then ""
  else
    let cleaned := collapseSeps trimmed.data
    let cleaned := camelSub cleaned
    let cleaned := upperRunSplit cleaned
    let words := pySplit cleaned
    if words.isEmpty then trimmed
    else String.intercalate " " (words.map deriveTitleTransform)

/-! ### `CommandDefinition._normalize_arguments` and `normalized` -/

/-- The loop of `_normalize_arguments`: normalize each entry, skip entries
that fail (bad constructor dict, empty name), deduplicate names keeping the
first occurrence. -/
def normalizeArgumentsGo : List ArgInput → List String → List CommandArgument
  | [], _ => []
  | v :: rest, seen =>
    match v with
    | .arg a =>
      match a.normalized with
      | .ok na =>
        if na.name ∈ seen then normalizeArgumentsGo rest seen
        else na :: normalizeArgumentsGo rest (na.name :: seen)
      | .error _ => normalizeArgumentsGo rest seen
    | .dictArg a =>
      match a.normalized with
      | .ok na =>
        if na.name ∈ seen then normalizeArgumentsGo rest seen
        else na :: normalizeArgumentsGo rest (na.name :: seen)
      | .error _ => normalizeArgumentsGo rest seen
    | .invalid => normalizeArgumentsGo rest seen

/-- `CommandDefinition._normalize_arguments`. -/
def normalizeArguments (values : Option (List ArgInput)) :
    Option (List ArgInput) :=
  match values with
  | Option.none => Option.none
  | some l =>
    if l.isEmpty then Option.none
    else
      let normalized := normalizeArgumentsGo l []
      if normalized.isEmpty then Option.none
      else some (normalized.map ArgInput.arg)

/-- The exposure deduplication loop of `normalized` (string members are
trimmed/lowered and unknown ones skipped). -/
def dedupExposures : List ExpItem → List CommandExposure → List CommandExposure
  | [], _ => []
  | it :: rest, seen =>
    let e? : Option CommandExposure :=
      match it with
      | .exposure e => some e
      | .raw s => CommandExposure.ofString? (pyLower (pyStrip s))
    match e? with
    | some e =>
      if e ∈ seen then dedupExposures rest seen
      else e :: dedupExposures rest (e :: seen)
    | Option.none => dedupExposures rest seen

/-- The `required` payload of an argument-input list (`any(arg.required
for arg in arguments)`). -/
def argInputsAnyRequired (l : List ArgInput) : Bool :=
  l.any fun ai =>
    match ai with
    | .arg a => a.required
    | .dictArg a => a.required
    | .invalid => false

/-- `CommandDefinition.normalized`. -/
def CommandDefinition.normalized (d : CommandDefinition) : CommandDefinition :=
  let name := let n := pyStrip d.name; if n = "" then d.name else n
  let title :=
    let t := pyStrip (d.title.getD "")
    if t = "" then (let dt := deriveTitle name; if dt = "" then name else dt)
    else t
  let exposures : List CommandExposure :=
    match d.expose_as with
    | some ea => if ea.truthy then dedupExposures ea.iter [] else []
    | Option.none => []
  let exposures :=
    if exposures.isEmpty then [CommandExposure.agentTool] else exposures
  let slashAndExp : Option String × List CommandExposure :=
    match d.slash_command with
    | some sc =>
      if sc ≠ "" then
        (some (normalizeSlash sc),
         if CommandExposure.slashCommand ∈ exposures then exposures
         else exposures ++ [CommandExposure.slashCommand])
      else if CommandExposure.slashCommand ∈ exposures then
        (some (normalizeSlash name), exposures)
      else (Option.none, exposures)
    | Option.none =>
      if CommandExposure.slashCommand ∈ exposures then
        (some (normalizeSlash name), exposures)
      else (Option.none, exposures)
  let scope := normalizeScope d.slash_scope
  let hint := pyStrip (d.argument_hint.getD "")
  let arguments := normalizeArguments d.arguments
  let required := d.argument_required ||
    (match arguments with
     | some l => argInputsAnyRequired l
     | Option.none => false)
  let progressLabel :=
    let p := pyStrip (d.progress_label.getD "")
    if p = "" then Option.none else some p
  { d with
    name := name
    title := some title
    expose_as := some (.seq (slashAndExp.2.map ExpItem.exposure))
    slash_command := slashAndExp.1
    slash_scope := some (.strVal scope)
    argument_hint := some hint
    argument_required := required
    arguments := arguments
    async_enabled := d.async_enabled
    progress_label := progressLabel
    hidden := d.hidden }

/-- Sequence `to_dict` over a list of arguments. -/
def argDicts : List CommandArgument → Except PyErr (List PyVal)
  | [] => .ok []
  | a :: rest =>
    match a.toDict with
    | .ok v =>
      match argDicts rest with
      | .ok vs => .ok (v :: vs)
      | .error e => .error e
    | .error e => .error e

/-- Extract the `CommandArgument` payloads of a normalized argument list. -/
def argPayloads (l : List ArgInput) : List CommandArgument :=
  l.filterMap fun ai =>
    match ai with
    | .arg a => some a
    | .dictArg a => some a
    | .invalid => Option.none

/-- `CommandDefinition.to_dict`: normalize, then serialize with only
non-default fields present. -/
def CommandDefinition.toDict (d : CommandDefinition) : Except PyErr PyVal :=
  let n := d.normalized
  let out : List (String × PyVal) := [("name", .str n.name)]
  let out := match n.title with
    | some t => if t ≠ "" then out ++ [("title", .str t)] else out
    | Option.none => out
  let out := match n.description with
    | some t => if t ≠ "" then out ++ [("description", .str t)] else out
    | Option.none => out
  let out := match n.expose_as with
    | some ea =>
      if ea.truthy then
        out ++ [("expose_as", .list (ea.iter.map fun it =>
          match it with
          | .exposure e => .str e.value
          | .raw s => .str s))]
      else out
    | Option.none => out
  let out := match n.slash_command with
    | some sc => if sc ≠ "" then out ++ [("slash_command", .str sc)] else out
    | Option.none => out
  let out := match n.slash_scope with
    | some (.strVal s) => if s ≠ "" then out ++ [("slash_scope", .str s)] else out
    | some (.scope sc) => out ++ [("slash_scope", .str sc.value)]
    | Option.none => out
  let out := match n.argument_hint with
    | some t => if t ≠ "" then out ++ [("argument_hint", .str t)] else out
    | Option.none => out
  let out := if n.argument_required then out ++ [("argument_required", .bool true)] else out
  match n.arguments with
  | some l =>
    if !l.isEmpty then
      match argDicts (argPayloads l) with
      | .ok vs =>
        let out := out ++ [("arguments", .list vs)]
        let out := if n.async_enabled then out ++ [("async", .bool true)] else out
        let out := match n.progress_label with
          | some t => if t ≠ "" then out ++ [("progress_label", .str t)] else out
          | Option.none => out
        let out := if n.hidden then out ++ [("hidden", .bool true)] else out
        .ok (.dict out)
      | .error e => .error e
    else
      let out := if n.async_enabled then out ++ [("async", .bool true)] else out
      let out := match n.progress_label with
        | some t => if t ≠ "" then out ++ [("progress_label", .str t)] else out
        | Option.none => out
      let out := if n.hidden then out ++ [("hidden", .bool true)] else out
      .ok (.dict out)
  | Option.none =>
    let out := if n.async_enabled then out ++ [("async", .bool true)] else out
    let out := match n.progress_label with
      | some t => if t ≠ "" then out ++ [("progress_label", .str t)] else out
      | Option.none => out
    let out := if n.hidden then out ++ [("hidden", .bool true)] else out
    .ok (.dict out)

/-! ## Message envelope (`protocol.py::MessageType`, `Message`) -/

/-- `protocol.py::MessageType`: the closed kind set. -/
inductive MessageType where
  | ready
  | log
  | lifecycleEvent
  | command
  | response
  | commandRegistry
  | systemPrompt
  | agentDescription
  | commandProgress
  | sidebarSection
  | sidebarSectionRemoval
  | error
deriving Repr, DecidableEq, Inhabited

/-- The wire value of a message type. -/
def MessageType.value : MessageType → String
  | .ready => "ready"
  | .log => "log"
  | .lifecycleEvent => "lifecycle_event"
  | .command => "command"
  | .response => "response"
  | .commandRegistry => "command_registry"
  | .systemPrompt => "system_prompt"
  | .agentDescription => "agent_description"
  | .commandProgress => "command_progress"
  | .sidebarSection => "sidebar_section"
  | .sidebarSectionRemoval => "sidebar_section_removal"
  | .error => "error"

/-- `MessageType(s)`: enum lookup by value. -/
def MessageType.ofString? (s : String) : Option MessageType :=
  if s = "ready" then some .ready
  else if s = "log" then some .log
  else if s = "lifecycle_event" then some .lifecycleEvent
  else if s = "command" then some .command
  else if s = "response" then some .response
  else if s = "command_registry" then some .commandRegistry
  else if s = "system_prompt" then some .systemPrompt
  else if s = "agent_description" then some .agentDescription
  else if s = "command_progress" then some .commandProgress
  else if s = "sidebar_section" then some .sidebarSection
  else if s = "sidebar_section_removal" then some .sidebarSectionRemoval
  else if s = "error" then some .error
  else Option.none

/-- `protocol.py::Message` after decoding: kind, timestamp (any JSON value;
not validated), payload (`data.get('data')`, `None` when absent). -/
structure Message where
  type : MessageType
  timestamp : PyVal
  data : PyVal
deriving Inhabited

/-- `Message.from_json` applied to an already-parsed JSON document:
`MessageType(data['type'])` raises `TypeError` on a non-dict document,
`KeyError` on a missing `type` key, and `ValueError` on an unknown or
non-string kind; `timestamp` defaults to the current time (`now`). -/
def Message.fromJson (now : String) (v : PyVal) : Except PyErr Message :=
  match v with
  | .dict kvs =>
    match PyVal.lookup kvs "type" with
    | Option.none => .error (.keyError "type")
    | some t =>
      match t with
      | .str s =>
        match MessageType.ofString? s with
        | some mt =>
          .ok { type := mt
                timestamp := (PyVal.lookup kvs "timestamp").getD (.str now)
                data := (PyVal.lookup kvs "data").getD .none }
        | Option.none =>
          .error (.valueError (pyRepr t ++ " is not a valid MessageType"))
      | _ => .error (.valueError (pyRepr t ++ " is not a valid MessageType"))
  | other =>
    .error (.typeError ("'" ++ pyTypeName other ++ "' object is not subscriptable"))

/-- `protocol.py::CommandMessage` (fields hold raw JSON values, as
`from_dict` performs no validation). -/
structure CommandMessage where
  command : PyVal := .str ""
  args : PyVal := .none
  id : PyVal := .none
  working_dir : PyVal := .none
deriving Inhabited

/-- `CommandMessage.from_dict` (raises `AttributeError` when the payload is
not a mapping, as `.get` is missing). -/
def CommandMessage.fromDict (data : PyVal) : Except PyErr CommandMessage :=
  match data with
  | .dict kvs =>
    .ok { command := (PyVal.lookup kvs "command").getD (.str "")
          args := (PyVal.lookup kvs "args").getD .none
          id := (PyVal.lookup kvs "id").getD .none
          working_dir := (PyVal.lookup kvs "working_dir").getD .none }
  | v =>
    .error (.attributeError ("'" ++ pyTypeName v ++ "' object has no attribute 'get'"))

/-! ## Lifecycle controller (`lifecycle.py::LifecycleManager`) -/

/-- A registered lifecycle handler, abstracted by its observable behaviour
when called with no arguments. -/
inductive HandlerBehavior where
  | ok
  | raises (msg : String)
deriving Repr, DecidableEq, Inhabited

/-- `LifecycleManager` state. -/
structure LifecycleManager where
  shutdownHandlers : List HandlerBehavior := []
  reloadHandlers : List HandlerBehavior := []
  statusHandlers : List HandlerBehavior := []
  shutdownEvent : Bool := false
  setupComplete : Bool := false
deriving Repr, DecidableEq, Inhabited

/-- Observable events of a lifecycle-controller run, in order: a handler
call (`invoked i`), an error envelope for an exception caught from a
handler, a log line, and the setting of the terminal shutdown event. -/
inductive LcTrace where
  | log (level : String) (message : String)
  | invoked (index : Nat)
  | errorEnvelope (message : String)
  | setShutdownEvent
deriving Repr, DecidableEq, Inhabited

/-- `LifecycleManager._invoke_handlers`: call every handler in order,
catching an exception per handler and reporting it via an error envelope. -/
def invokeHandlersGo (category : String) (idx : Nat) :
    List HandlerBehavior → List LcTrace
  | [] => []
  | h :: rest =>
    (LcTrace.invoked idx ::
      (match h with
       | .ok => []
       | .raises m => [.errorEnvelope (category ++ " handler failed: " ++ m)]))
      ++ invokeHandlersGo category (idx + 1) rest

/-- `LifecycleManager._handle_sigterm`: log, run every shutdown handler,
then set the terminal event. -/
def LifecycleManager.handleSigterm (m : LifecycleManager) :
    LifecycleManager × List LcTrace :=
  ({ m with shutdownEvent := true },
   LcTrace.log "info" "Received SIGTERM, initiating graceful shutdown"
     :: (invokeHandlersGo "Shutdown" 0 m.shutdownHandlers ++ [.setShutdownEvent]))

/-- `LifecycleManager.initiate_shutdown` triggers the SIGTERM path
programmatically. -/
def LifecycleManager.initiateShutdown (m : LifecycleManager) :
    LifecycleManager × List LcTrace :=
  m.handleSigterm

/-- `LifecycleManager._handle_sigint` delegates to `_handle_sigterm`. -/
def LifecycleManager.handleSigint (m : LifecycleManager) :
    LifecycleManager × List LcTrace :=
  let r := m.handleSigterm
  (r.1, LcTrace.log "info" "Received SIGINT, shutting down" :: r.2)

/-- `LifecycleManager._handle_sighup`: run reload handlers (no terminal
event). -/
def LifecycleManager.handleSighup (m : LifecycleManager) :
    LifecycleManager × List LcTrace :=
  (m, LcTrace.log "info" "Received SIGHUP, reloading configuration"
        :: invokeHandlersGo "Reload" 0 m.reloadHandlers)

/-- `LifecycleManager.on_shutdown`: append a shutdown handler. -/
def LifecycleManager.onShutdown (m : LifecycleManager) (h : HandlerBehavior) :
    LifecycleManager :=
  { m with shutdownHandlers := m.shutdownHandlers ++ [h] }

/-- `LifecycleManager.wait_for_shutdown` blocks until the terminal event is
set: a waiting thread is unblocked exactly when this is `true`. -/
def LifecycleManager.waitForShutdownUnblocked (m : LifecycleManager) : Bool :=
  m.shutdownEvent

/-- `LifecycleManager.setup_signal_handlers`: installs bindings once; a
second call is a no-op. -/
def LifecycleManager.setupSignalHandlers (m : LifecycleManager) :
    LifecycleManager × List LcTrace :=
  if m.setupComplete then (m, [])
  else ({ m with setupComplete := true },
        [.log "debug" "Signal handlers registered"])

/-! ## Agent runtime (`agent.py::OpperatorAgent`) -/

/-- Generic first-match association-list lookup (CPython dict lookup on the
duplicate-free dicts the agent maintains). -/
def assocLookup {α : Type} (kvs : List (String × α)) (k : String) : Option α :=
  match kvs with
  | [] => Option.none
  | (k', v) :: rest => if k' = k then some v else assocLookup rest k

/-- Generic dict assignment: replace in place or append. -/
def assocInsert {α : Type} (kvs : List (String × α)) (k : String) (v : α) :
    List (String × α) :=
  match kvs with
  | [] => [(k, v)]
  | (k', v') :: rest =>
    if k' = k then (k', v) :: rest else (k', v') :: assocInsert rest k v

/-- Dict lookup keyed by an arbitrary inbound value: only string keys can
match the registry's string keys. -/
def lookupByPyKey {α : Type} (kvs : List (String × α)) (k : PyVal) : Option α :=
  match k with
  | .str s => assocLookup kvs s
  | _ => Option.none

/-- A registered command handler, abstracted by its observable behaviour on
the prepared arguments it is invoked with. -/
inductive HandlerSpec where
  | returns (v : PyVal)
  | raises (msg : String)
deriving Inhabited

/-- The agent state the dispatch path reads and writes: the three registry
dicts and the cached invocation directory. -/
structure AgentState where
  commandHandlers : List (String × HandlerSpec) := []
  commandMetadata : List (String × CommandDefinition) := []
  argumentSchemas : List (String × List CommandArgument) := []
  invocationDir : Option String := none
deriving Inhabited

/-- Observable events of the dispatch path, in order.  `response`,
`errorEnvelope`, `commandRegistry` and `log` are envelopes written to
stdout (serialization drops falsy fields; theorems are stated on this
structured form).  `setContext`/`clearContext`/`handlerInvoked`/
`asyncSubmitted` record the thread-local context writes, the handler call,
and a worker-pool submission. -/
inductive Trace where
  | log (level : String) (message : String)
  | response (success : Bool) (commandId : PyVal) (result : Option PyVal)
      (error : Option String)
  | errorEnvelope (message : String)
  | commandRegistry (payload : PyVal)
  | setContext (commandId : PyVal) (dir : Option String)
  | clearContext
  | handlerInvoked (command : PyVal) (args : List (String × PyVal))
  | asyncSubmitted (command : PyVal)
  | lifecycleHandled (eventType : PyVal)
deriving Inhabited

/-- Result of one dispatch step: the updated state, the events emitted, and
an exception escaping the step, if any (everything in `trace` happened
before the exception propagated). -/
structure StepResult where
  state : AgentState
  trace : List Trace
  escaped : Option PyErr := Option.none

/-- `OpperatorAgent._resolve_invocation_dir`: explicit value wins, else the
cached directory; empty/falsy resolves to `None`.  The
`os.path.expanduser`/`os.path.abspath` expansion is environment-dependent
and modelled as the identity on the stringified candidate. -/
def resolveInvocationDir (raw : PyVal) (cached : Option String) :
    Option String :=
  if raw.truthy then some (pyStr raw)
  else
    match cached with
    | some s => if s ≠ "" then some s else Option.none
    | Option.none => Option.none

/-- The enum constraint check of `_coerce_arguments_from_schema`
(`if argument.enum and value not in argument.enum`). -/
def enumCheck (a : CommandArgument) (v : PyVal) : Except PyErr (Option PyVal) :=
  match a.enum with
  | some l =>
    if !l.isEmpty && !(l.any fun e => pyEq v e) then
      .error (.valueError
        ("Invalid value for '" ++ a.name ++ "'; expected one of "
          ++ pyRepr (.list l)))
    else .ok (some v)
  | Option.none => .ok (some v)

/-- The body of the schema loop of `_coerce_arguments_from_schema` for one
declared argument: `.ok none` means the argument contributes nothing
(absent, no default, not required — `continue`). -/
def processArg (a : CommandArgument) (incoming : List (String × PyVal)) :
    Except PyErr (Option PyVal) :=
  let lookupVal := PyVal.lookup incoming a.name
  let hasValue :=
    match lookupVal with
    | some v => !v.isNone
    | Option.none => false
  if !hasValue then
    if !a.default.isNone then enumCheck a (pyDeepCopy a.default)
    else if a.required then
      .error (.valueError ("Missing required argument '" ++ a.name ++ "'"))
    else .ok Option.none
  else
    match coerceArgumentValue (.str a.type) (lookupVal.getD .none)
        (a.items.getD .none) (a.properties.getD .none) with
    | .ok v => enumCheck a v
    | .error e => .error e

/-- The schema loop of `_coerce_arguments_from_schema`. -/
def coerceArgsGo (incoming : List (String × PyVal)) :
    List CommandArgument → List (String × PyVal) →
      Except PyErr (List (String × PyVal))
  | [], acc => .ok acc
  | a :: rest, acc =>
    match processArg a incoming with
    | .ok (some v) => coerceArgsGo incoming rest (PyVal.insert acc a.name v)
    | .ok Option.none => coerceArgsGo incoming rest acc
    | .error e => .error e

/-- `OpperatorAgent._coerce_arguments_from_schema`: coerce declared
arguments, then preserve incoming keys the schema loop did not produce. -/
def coerceArgumentsFromSchema (schema : List CommandArgument)
    (incoming : List (String × PyVal)) :
    Except PyErr (List (String × PyVal)) :=
  match coerceArgsGo incoming schema [] with
  | .ok normalized => .ok (objPassthrough normalized incoming)
  | .error e => .error e

/-- `OpperatorAgent._prepare_command_arguments`. -/
def prepareCommandArguments (definition : Option CommandDefinition)
    (schema : Option (List CommandArgument)) (args : PyVal) :
    Except PyErr (List (String × PyVal)) :=
  match (if args.truthy then args else .dict []) with
  | .dict incoming =>
    if (match schema with | some l => !l.isEmpty | Option.none => false) then
      coerceArgumentsFromSchema (schema.getD []) incoming
    else if (match definition with
             | some d => d.argument_required
             | Option.none => false) && incoming.isEmpty then
      .error (.valueError "Arguments are required for this command")
    else .ok incoming
  | v => .error (.typeError ("'" ++ pyTypeName v ++ "' object is not iterable"))

/-- Lexicographic code-point comparison on character lists (the order
Python's `sorted` uses for strings). -/
def charListLe : List Char → List Char → Bool
  | [], _ => true
  | _ :: _, [] => false
  | a :: as, b :: bs =>
    if a < b then true
    else if b < a then false
    else charListLe as bs

/-- `a <= b` on strings by code points, as Python compares them. -/
def pyStrLe (a b : String) : Bool := charListLe a.data b.data

/-- `OpperatorAgent._command_definitions`: normalized definitions for the
registered names in sorted order (a missing metadata entry falls back to a
bare definition). -/
def commandDefinitions (st : AgentState) : List CommandDefinition :=
  ((st.commandHandlers.map Prod.fst).mergeSort pyStrLe).map fun n =>
    ((assocLookup st.commandMetadata n).getD { name := n }).normalized

/-- Sequence `to_dict` over definitions (the registry-listing payload). -/
def definitionDicts : List CommandDefinition → Except PyErr (List PyVal)
  | [] => .ok []
  | d :: rest =>
    match d.toDict with
    | .ok v =>
      match definitionDicts rest with
      | .ok vs => .ok (v :: vs)
      | .error e => .error e
    | .error e => .error e

/-- `OpperatorAgent._execute_command`: bind the per-invocation context,
invoke the handler, convert a handler failure into a failure response,
wrap a return value into a success response, and unconditionally clear the
context. -/
def executeCommand (st : AgentState) (cmd : CommandMessage)
    (handler : HandlerSpec) (prepared : List (String × PyVal))
    (invocationDir : Option String) : StepResult :=
  match handler with
  | .returns v =>
    { state := st
      trace := [.setContext cmd.id invocationDir,
                .handlerInvoked cmd.command prepared,
                .response true cmd.id (some v) Option.none,
                .clearContext] }
  | .raises m =>
    { state := st
      trace := [.setContext cmd.id invocationDir,
                .handlerInvoked cmd.command prepared,
                .log "error" ("Command '" ++ pyStr cmd.command ++ "' failed"),
                .response false cmd.id Option.none (some m),
                .clearContext] }

/-- `OpperatorAgent._handle_command`: the dispatch state machine for one
command envelope.  An async submission is recorded as `asyncSubmitted`
(execution then happens on the worker pool). -/
def handleCommand (st : AgentState) (cmd : CommandMessage) : StepResult :=
  let invocationDir := resolveInvocationDir cmd.working_dir st.invocationDir
  let st :=
    match invocationDir with
    | some d => if d ≠ "" then { st with invocationDir := some d } else st
    | Option.none => st
  if pyEq cmd.command (.str "__list_commands") then
    match definitionDicts (commandDefinitions st) with
    | .ok payload =>
      { state := st
        trace := [.setContext cmd.id invocationDir,
                  .response true cmd.id (some (.list payload)) Option.none,
                  .clearContext] }
    | .error e =>
      { state := st
        trace := [.setContext cmd.id invocationDir, .clearContext]
        escaped := some e }
  else
    match lookupByPyKey st.commandHandlers cmd.command with
    | Option.none =>
      { state := st
        trace := [.response false cmd.id Option.none
                    (some ("Unknown command: " ++ pyStr cmd.command))] }
    | some handler =>
      let definition := lookupByPyKey st.commandMetadata cmd.command
      let schema := lookupByPyKey st.argumentSchemas cmd.command
      match prepareCommandArguments definition schema cmd.args with
      | .error (.valueError m) =>
        { state := st
          trace := [.response false cmd.id Option.none (some m)] }
      | .error e => { state := st, trace := [], escaped := some e }
      | .ok prepared =>
        let asyncEnabled :=
          match definition with
          | some d => d.async_enabled
          | Option.none => false
        if asyncEnabled then
          { state := st, trace := [.asyncSubmitted cmd.command] }
        else executeCommand st cmd handler prepared invocationDir

/-- `OpperatorAgent._handle_lifecycle_event`: the only state the runtime
core mutates is the cached invocation directory on
`invocation_directory_changed`; the per-event hooks are user code whose
exceptions the handler catches and logs. -/
def handleLifecycleEvent (st : AgentState) (eventType : PyVal) (payload : PyVal) :
    StepResult :=
  let dataD := if payload.truthy then payload else .dict []
  if pyEq eventType (.str "invocation_directory_changed") then
    match dataD with
    | .dict kvs =>
      let newPath := (PyVal.lookup kvs "new_path").getD (.str "")
      let st' :=
        if newPath.truthy then { st with invocationDir := some (pyStr newPath) }
        else st
      { state := st', trace := [.lifecycleHandled eventType] }
    | _ => { state := st, trace := [.lifecycleHandled eventType] }
  else { state := st, trace := [.lifecycleHandled eventType] }

/-- `OpperatorAgent._handle_message`: route a decoded envelope by kind;
kinds other than `command`/`lifecycle_event` are ignored. -/
def handleMessage (st : AgentState) (msg : Message) : StepResult :=
  if msg.type = MessageType.command ∧ msg.data.truthy then
    match CommandMessage.fromDict msg.data with
    | .ok cmd =>
      if cmd.command.truthy then handleCommand st cmd
      else { state := st, trace := [] }
    | .error e => { state := st, trace := [], escaped := some e }
  else if msg.type = MessageType.lifecycleEvent ∧ msg.data.truthy then
    match msg.data with
    | .dict kvs =>
      handleLifecycleEvent st ((PyVal.lookup kvs "event_type").getD (.str ""))
        ((PyVal.lookup kvs "data").getD .none)
    | v => { state := st, trace := [], escaped :=
              some (.attributeError
                ("'" ++ pyTypeName v ++ "' object has no attribute 'get'")) }
  else { state := st, trace := [] }

/-- The reader loop of `_start_message_reader`: one iteration per input
line; end of input (`readline` returning `''`) breaks the loop normally.
A `json.JSONDecodeError` from `Message.from_json` is swallowed and reading
continues; any other exception (from envelope validation or message
handling) is reported via an error envelope and breaks the loop. -/
def readLoop (now : String) (st : AgentState) :
    List String → AgentState × List Trace
  | [] => (st, [])
  | line :: rest =>
    let stripped := pyStrip line
    if stripped = "" then readLoop now st rest
    else
      match jsonLoads stripped with
      | .error _ => readLoop now st rest
      | .ok v =>
        match Message.fromJson now v with
        | .error e =>
          (st, [.errorEnvelope ("Error reading manager message: " ++ e.message)])
        | .ok msg =>
          let r := handleMessage st msg
          match r.escaped with
          | some e =>
            (r.state,
             r.trace ++ [.errorEnvelope ("Error reading manager message: "
               ++ e.message)])
          | Option.none =>
            let rec' := readLoop now r.state rest
            (rec'.1, r.trace ++ rec'.2)

/-- `OpperatorAgent._normalize_command_name`: trim, reject empty. -/
def normalizeCommandName (name : String) : Except PyErr String :=
  let trimmed := pyStrip name
  if trimmed = "" then .error (.valueError "command name must be a non-empty string")
  else .ok trimmed

/-- The strict loop of `OpperatorAgent._parse_exposures`: unknown string
exposures raise (unlike the lenient dedup inside `normalized`). -/
def parseExposuresGo : List ExpItem → List CommandExposure →
    Except PyErr (List CommandExposure)
  | [], _ => .ok []
  | it :: rest, seen =>
    let e? : Option CommandExposure :=
      match it with
      | .exposure e => some e
      | .raw s => CommandExposure.ofString? s
    match e? with
    | some e =>
      if e ∈ seen then parseExposuresGo rest seen
      else
        match parseExposuresGo rest (e :: seen) with
        | .ok l => .ok (e :: l)
        | .error err => .error err
    | Option.none =>
      match it with
      | .raw s => .error (.valueError ("unknown command exposure '" ++ s ++ "'"))
      | _ => .error (.valueError "unknown command exposure")

/-- `OpperatorAgent._parse_exposures`. -/
def parseExposures (exposeAs : Option ExposeAs) :
    Except PyErr (Option ExposeAs) :=
  match exposeAs with
  | Option.none => .ok Option.none
  | some ea =>
    match parseExposuresGo ea.iter [] with
    | .ok l => .ok (some (.seq (l.map ExpItem.exposure)))
    | .error e => .error e

/-- The registry snapshot payload of `_publish_command_registry`
(`Protocol.send_command_registry(self._command_definitions())`). -/
def registrySnapshot (st : AgentState) : Except PyErr PyVal :=
  match definitionDicts (commandDefinitions st) with
  | .ok vs => .ok (.dict [("commands", .list vs)])
  | .error e => .error e

/-- `OpperatorAgent.register_command`: normalize the name, parse the
exposures strictly, normalize the definition, store handler + definition +
schema under the normalized name, and republish the registry snapshot. -/
def registerCommand (st : AgentState) (name : String) (handler : HandlerSpec)
    (d : CommandDefinition) : Except PyErr (AgentState × List Trace) :=
  match normalizeCommandName name with
  | .error e => .error e
  | .ok commandName =>
    match parseExposures d.expose_as with
    | .error e => .error e
    | .ok exposures =>
      let definition := { d with name := commandName, expose_as := exposures }
      let nd := definition.normalized
      let st' : AgentState :=
        { st with
          commandHandlers := assocInsert st.commandHandlers commandName handler
          commandMetadata := assocInsert st.commandMetadata commandName nd
          argumentSchemas := assocInsert st.argumentSchemas commandName
            (argPayloads (nd.arguments.getD [])) }
      match registrySnapshot st' with
      | .ok payload => .ok (st', [.commandRegistry payload])
      | .error e => .error e

/-! ## Theorems -/

/-- The handler index recorded by an `invoked` event, if any. -/
def invokedIndex : LcTrace → Option Nat
  | .invoked i => some i
  | _ => Option.none

theorem invokeHandlersGo_invoked (category : String) :
    ∀ (hs : List HandlerBehavior) (idx : Nat),
      (invokeHandlersGo category idx hs).filterMap invokedIndex
        = List.range' idx hs.length := by
  intro hs
  induction hs with
  | nil => intro idx; simp [invokeHandlersGo]
  | cons h rest ih =>
    intro idx
    cases h with
    | ok =>
      simp [invokeHandlersGo, List.filterMap_cons, invokedIndex, ih,
        List.range'_succ]
    | raises m =>
      simp [invokeHandlersGo, List.filterMap_cons, invokedIndex, ih,
        List.range'_succ]

theorem invokeHandlersGo_error (category msg : String) :
    ∀ (hs : List HandlerBehavior) (idx k : Nat),
      hs[k]? = some (.raises msg) →
      LcTrace.errorEnvelope (category ++ " handler failed: " ++ msg)
        ∈ invokeHandlersGo category idx hs := by
  intro hs
  induction hs with
  | nil => intro idx k h; simp at h
  | cons h rest ih =>
    intro idx k hk
    cases k with
    | zero =>
      simp at hk
      subst hk
      simp [invokeHandlersGo]
    | succ k' =>
      simp at hk
      have hmem := ih (idx + 1) k' hk
      cases h with
      | ok => simpa [invokeHandlersGo] using hmem
      | raises m2 =>
        simp [invokeHandlersGo]
        right
        exact hmem

theorem invokeHandlersGo_no_set (category : String) :
    ∀ (hs : List HandlerBehavior) (idx : Nat),
      LcTrace.setShutdownEvent ∉ invokeHandlersGo category idx hs := by
  intro hs
  induction hs with
  | nil => intro idx; simp [invokeHandlersGo]
  | cons h rest ih =>
    intro idx
    cases h <;> simp [invokeHandlersGo] <;>
      first
        | exact ih (idx + 1)
        | (constructor
           · intro hc
             cases hc
           · exact ih (idx + 1))

/-- C4: on a shutdown signal (or programmatic `initiate_shutdown`), every
registered shutdown handler runs exactly once in registration order (the
sequence of handler invocations recorded in the trace is exactly
`0, 1, …, n-1`); an exception from one handler is caught and reported
without preventing the remaining handlers (they all still appear in the
invocation sequence); the one-way terminal flag is set only after all
handlers complete (the set-event is the last trace event and occurs nowhere
earlier); and it unblocks every thread waiting in `waitForTermination()`. -/
theorem C4_shutdown_handlers_once_in_order_then_flag (m : LifecycleManager) :
    ((m.handleSigterm.2.filterMap invokedIndex)
        = List.range m.shutdownHandlers.length) ∧
    (∀ (k : Nat) (msg : String),
       m.shutdownHandlers[k]? = some (HandlerBehavior.raises msg) →
       LcTrace.errorEnvelope ("Shutdown handler failed: " ++ msg)
         ∈ m.handleSigterm.2) ∧
    (m.handleSigterm.2.getLast? = some LcTrace.setShutdownEvent) ∧
    (LcTrace.setShutdownEvent ∉ m.handleSigterm.2.dropLast) ∧
    m.handleSigterm.1.shutdownEvent = true ∧
    m.handleSigterm.1.waitForShutdownUnblocked = true ∧
    m.initiateShutdown = m.handleSigterm := by
  refine ⟨?_, ?_, ?_, ?_, rfl, rfl, rfl⟩
  · show (LcTrace.log _ _ :: (invokeHandlersGo "Shutdown" 0 m.shutdownHandlers
      ++ [LcTrace.setShutdownEvent])).filterMap invokedIndex = _
    rw [List.filterMap_cons]
    simp only [invokedIndex]
    rw [List.filterMap_append]
    simp [invokeHandlersGo_invoked, invokedIndex, List.range_eq_range']
  · intro k msg hk
    have hmem := invokeHandlersGo_error "Shutdown" msg m.shutdownHandlers 0 k hk
    have heq : ("Shutdown" ++ " handler failed: ") = "Shutdown handler failed: " := rfl
    rw [heq] at hmem
    show _ ∈ LcTrace.log _ _ :: (invokeHandlersGo "Shutdown" 0 m.shutdownHandlers
      ++ [LcTrace.setShutdownEvent])
    exact List.mem_cons_of_mem _ (List.mem_append_left _ hmem)
  · show (LcTrace.log _ _ :: (invokeHandlersGo "Shutdown" 0 m.shutdownHandlers
      ++ [LcTrace.setShutdownEvent])).getLast? = _
    rw [← List.cons_append, List.getLast?_concat]
  · show LcTrace.setShutdownEvent ∉ (LcTrace.log _ _ ::
      (invokeHandlersGo "Shutdown" 0 m.shutdownHandlers
        ++ [LcTrace.setShutdownEvent])).dropLast
    rw [← List.cons_append, List.dropLast_concat]
    intro hmem
    rcases List.mem_cons.mp hmem with h1 | h2
    · cases h1
    · exact invokeHandlersGo_no_set "Shutdown" m.shutdownHandlers 0 h2

/-- Witness for C4 at a concrete three-handler manager whose middle handler
raises. -/
theorem C4_witness :
    let m : LifecycleManager :=
      { shutdownHandlers := [.ok, .raises "boom", .ok] }
    (m.handleSigterm.2.filterMap invokedIndex = [0, 1, 2]) ∧
    LcTrace.errorEnvelope "Shutdown handler failed: boom" ∈ m.handleSigterm.2 ∧
    m.handleSigterm.2.getLast? = some LcTrace.setShutdownEvent ∧
    m.handleSigterm.1.waitForShutdownUnblocked = true := by
  intro m
  obtain ⟨h1, h2, h3, _, _, h6, _⟩ :=
    C4_shutdown_handlers_once_in_order_then_flag m
  refine ⟨by simpa using h1, ?_, h3, h6⟩
  exact h2 1 "boom" (by rfl)

/-! ### C6: boolean coercion -/

/-- The base-10 value of a digit string (specification-side semantics for
"parses as a base-10 integer"). -/
def decimalVal (ds : List Char) : Nat :=
  ds.foldl (fun a c => a * 10 + (c.toNat - 48)) 0

theorem pyDigitsGo_digits :
    ∀ (ds : List Char) (acc : Nat), (∀ c ∈ ds, c.isDigit) →
      pyDigitsGo acc ds
        = some (ds.foldl (fun a c => a * 10 + (c.toNat - 48)) acc) := by
  intro ds
  induction ds with
  | nil => intro acc _; simp [pyDigitsGo]
  | cons c rest ih =>
    intro acc h
    have hc : c.isDigit := h c (by simp)
    have hcne : c ≠ '_' := by
      intro he
      subst he
      simp [Char.isDigit] at hc
    have hrec := ih (acc * 10 + (c.toNat - 48)) fun x hx => h x (by simp [hx])
    rw [pyDigitsGo.eq_def]
    simp [hcne, hc, hrec]

theorem pyDigitsVal_digits (ds : List Char) (hne : ds ≠ [])
    (h : ∀ c ∈ ds, c.isDigit) :
    pyDigitsVal ds = some (decimalVal ds) := by
  cases ds with
  | nil => exact absurd rfl hne
  | cons c rest =>
    have hc : c.isDigit := h c (by simp)
    simp only [pyDigitsVal, if_pos hc, decimalVal, List.foldl_cons]
    rw [pyDigitsGo_digits rest _ fun x hx => h x (by simp [hx])]
    norm_num

/-- Unfolding of the boolean branch on a string value. -/
theorem coerce_boolean_str (s : String) :
    coerceArgumentValue (.str "boolean") (.str s) .none .none
      = (if pyLower (pyStrip s) = "true" ∨ pyLower (pyStrip s) = "1"
            ∨ pyLower (pyStrip s) = "yes" ∨ pyLower (pyStrip s) = "on" then
           .ok (.bool true)
         else if pyLower (pyStrip s) = "false" ∨ pyLower (pyStrip s) = "0"
            ∨ pyLower (pyStrip s) = "no" ∨ pyLower (pyStrip s) = "off" then
           .ok (.bool false)
         else
           .error (.valueError ("Cannot interpret '" ++ s ++ "' as boolean"))) := by
  simp [coerceArgumentValue, resolveArgType, PyVal.truthy, PyVal.isNone, pyLower]

/-- C6: boolean argument coercion — booleans pass through; trimmed,
case-folded `true/1/yes/on` parse to `true` and `false/0/no/off` to
`false`; any other string raises naming the offending value; a numeric
input coerces to `false` exactly when it is zero; and the remaining
(non-null) inputs, sequences and mappings, raise naming the offending
value.  (A `None` value never reaches coercion for a declared argument:
preparation treats it as absent.) -/
theorem C6_boolean_coercion :
    (∀ b : Bool, coerceArgumentValue (.str "boolean") (.bool b) .none .none
        = .ok (.bool b)) ∧
    (∀ s : String,
       pyLower (pyStrip s) ∈ (["true", "1", "yes", "on"] : List String) →
       coerceArgumentValue (.str "boolean") (.str s) .none .none
         = .ok (.bool true)) ∧
    (∀ s : String,
       pyLower (pyStrip s) ∈ (["false", "0", "no", "off"] : List String) →
       coerceArgumentValue (.str "boolean") (.str s) .none .none
         = .ok (.bool false)) ∧
    (∀ s : String,
       pyLower (pyStrip s) ∉ (["true", "1", "yes", "on"] : List String) →
       pyLower (pyStrip s) ∉ (["false", "0", "no", "off"] : List String) →
       coerceArgumentValue (.str "boolean") (.str s) .none .none
         = .error (.valueError ("Cannot interpret '" ++ s ++ "' as boolean"))) ∧
    (∀ z : Int, coerceArgumentValue (.str "boolean") (.int z) .none .none
        = .ok (.bool (z ≠ 0))) ∧
    (∀ q : Rat, coerceArgumentValue (.str "boolean") (.float q) .none .none
        = .ok (.bool (q ≠ 0))) ∧
    (∀ xs : List PyVal,
       coerceArgumentValue (.str "boolean") (.list xs) .none .none
         = .error (.valueError
             ("Cannot interpret '" ++ pyStr (.list xs) ++ "' as boolean"))) ∧
    (∀ kvs : List (String × PyVal),
       coerceArgumentValue (.str "boolean") (.dict kvs) .none .none
         = .error (.valueError
             ("Cannot interpret '" ++ pyStr (.dict kvs) ++ "' as boolean"))) := by
  refine ⟨?_, ?_, ?_, ?_, ?_, ?_, ?_, ?_⟩
  · intro b
    simp [coerceArgumentValue, resolveArgType, PyVal.truthy, pyLower, PyVal.isNone]
  · intro s hmem
    simp only [List.mem_cons, List.mem_singleton, List.not_mem_nil, or_false] at hmem
    rcases hmem with h | h | h | h <;> rw [coerce_boolean_str] <;> simp [h]
  · intro s hmem
    simp only [List.mem_cons, List.mem_singleton, List.not_mem_nil, or_false] at hmem
    rcases hmem with h | h | h | h <;> rw [coerce_boolean_str] <;> simp [h]
  · intro s h1 h2
    simp only [List.mem_cons, List.mem_singleton, List.not_mem_nil, or_false,
      not_or] at h1 h2
    obtain ⟨a1, a2, a3, a4⟩ := h1
    obtain ⟨b1, b2, b3, b4⟩ := h2
    rw [coerce_boolean_str]
    simp [a1, a2, a3, a4, b1, b2, b3, b4]
  · intro z
    simp [coerceArgumentValue, resolveArgType, PyVal.truthy, PyVal.isNone, pyLower]
  · intro q
    simp [coerceArgumentValue, resolveArgType, PyVal.truthy, PyVal.isNone, pyLower]
  · intro xs
    simp [coerceArgumentValue, resolveArgType, PyVal.truthy, PyVal.isNone, pyLower]
  · intro kvs
    simp [coerceArgumentValue, resolveArgType, PyVal.truthy, PyVal.isNone, pyLower]

/-- Witness for C6 at concrete inputs: `" YES "` parses true, `"off"`
parses false, `"maybe"` errors naming itself, `0.0` coerces to false, `7`
to true, and a list input errors naming itself. -/
theorem C6_witness :
    coerceArgumentValue (.str "boolean") (.str " YES ") .none .none
      = .ok (.bool true) ∧
    coerceArgumentValue (.str "boolean") (.str "off") .none .none
      = .ok (.bool false) ∧
    coerceArgumentValue (.str "boolean") (.str "maybe") .none .none
      = .error (.valueError "Cannot interpret 'maybe' as boolean") ∧
    coerceArgumentValue (.str "boolean") (.float 0) .none .none
      = .ok (.bool false) ∧
    coerceArgumentValue (.str "boolean") (.int 7) .none .none
      = .ok (.bool true) ∧
    coerceArgumentValue (.str "boolean") (.list [.int 1]) .none .none
      = .error (.valueError "Cannot interpret '[1]' as boolean") := by
  obtain ⟨hb, ht, hf, he, hz, hq, hl, _⟩ := C6_boolean_coercion
  refine ⟨?_, ?_, ?_, ?_, ?_, ?_⟩
  · exact ht " YES " (by decide)
  · exact hf "off" (by decide)
  · exact he "maybe" (by decide) (by decide)
  · simpa using hq 0
  · simpa using hz 7
  · have := hl [.int 1]
    simpa [pyStr, pyRepr, pyReprSep, pyIntStr] using this

/-! ### C2: integer coercion -/

/-- Helper: coercing a list of integral floats with an integer items schema
maps each to its integer value. -/
theorem coerceItems_integral_floats :
    ∀ (qs : List Rat) (idx : Nat), (∀ q ∈ qs, q.den = 1) →
      coerceItems (.str "integer") .none .none idx (qs.map .float)
        = .ok (qs.map fun q => .int q.num) := by
  intro qs
  induction qs with
  | nil => intro idx _; simp [coerceItems]
  | cons q rest ih =>
    intro idx h
    have hq : q.den = 1 := h q (by simp)
    have hrec := ih (idx + 1) fun x hx => h x (by simp [hx])
    simp only [List.map_cons, coerceItems]
    rw [show coerceArgumentValue (.str "integer") (.float q) .none .none
        = .ok (.int q.num) from by
      simp [coerceArgumentValue, resolveArgType, PyVal.truthy, PyVal.isNone,
        pyLower, hq]]
    simp [hrec]

theorem pyIntOfString_digits (s : String) (hne : (pyStrip s).data ≠ [])
    (hd : ∀ c ∈ (pyStrip s).data, c.isDigit) :
    pyIntOfString s = .ok ((decimalVal (pyStrip s).data : Nat) : Int) := by
  have hval := pyDigitsVal_digits (pyStrip s).data hne hd
  unfold pyIntOfString
  dsimp only
  split
  · rename_i rest heq
    have := hd '-' (by rw [heq]; simp)
    simp [Char.isDigit] at this
  · rename_i rest heq
    have := hd '+' (by rw [heq]; simp)
    simp [Char.isDigit] at this
  · rw [hval]

theorem pyIntOfString_neg_digits (s : String) (ds : List Char)
    (heq : (pyStrip s).data = '-' :: ds) (hne : ds ≠ [])
    (hd : ∀ c ∈ ds, c.isDigit) :
    pyIntOfString s = .ok (-(decimalVal ds : Int)) := by
  have hval := pyDigitsVal_digits ds hne hd
  unfold pyIntOfString
  dsimp only
  rw [heq]
  simp [hval]

/-- C2 falsified: the claim says a non-integral float (e.g. `1.5`) errors
for an integer argument, also as an array item; the code instead falls
through to `int(value)`, which truncates: `1.5` coerces to `1`, and
`[1.5]` with integer items coerces to `[1]`. -/
theorem C2_counterexample :
    coerceArgumentValue (.str "integer") (.float (3 / 2)) .none .none
      = .ok (.int 1) ∧
    coerceArgumentValue (.str "array") (.list [.float (3 / 2)])
      (.dict [("type", .str "integer")]) .none
      = .ok (.list [.int 1]) := by
  have hden : ¬((3 : Rat) / 2).den = 1 := by norm_num
  have hnum : ((3 : Rat) / 2).num = 3 := by norm_num
  have hden2 : ((3 : Rat) / 2).den = 2 := by norm_num
  have htdiv : Int.tdiv 3 ((2 : Nat) : Int) = 1 := by decide
  constructor
  · simp [coerceArgumentValue, resolveArgType, PyVal.truthy, PyVal.isNone,
      pyLower]
    rw [if_neg hden, hnum, hden2, htdiv]
  · simp [coerceArgumentValue, resolveArgType, PyVal.truthy, PyVal.isNone,
      pyLower, coerceArrayWithItems, PyVal.lookup, coerceItems]
    rw [if_neg hden, hnum, hden2, htdiv]

/-- C2 (amended): for an argument declared `integer`, coercion rejects
boolean inputs, returns already-typed integers unchanged, converts an
integral float to the corresponding integer (`1.0 → 1`), and — contrary to
the original claim — does not error on a non-integral float: the value
falls through to `int()`, which truncates toward zero (`1.5 → 1`, also as
an array item); trimmed strings of base-10 digits (optionally signed)
parse to the denoted integer. -/
theorem C2_integer_coercion_amended :
    (∀ b : Bool,
       coerceArgumentValue (.str "integer") (.bool b) .none .none
         = .error (.valueError "Boolean value is not valid for integer argument")) ∧
    (∀ z : Int,
       coerceArgumentValue (.str "integer") (.int z) .none .none
         = .ok (.int z)) ∧
    (∀ q : Rat, q.den = 1 →
       coerceArgumentValue (.str "integer") (.float q) .none .none
         = .ok (.int q.num)) ∧
    (∀ q : Rat,
       coerceArgumentValue (.str "integer") (.float q) .none .none
         = .ok (.int (q.num.tdiv q.den))) ∧
    (∀ s : String, (pyStrip s).data ≠ [] →
       (∀ c ∈ (pyStrip s).data, c.isDigit) →
       coerceArgumentValue (.str "integer") (.str s) .none .none
         = .ok (.int (decimalVal (pyStrip s).data))) ∧
    (∀ (s : String) (ds : List Char), (pyStrip s).data = '-' :: ds →
       ds ≠ [] → (∀ c ∈ ds, c.isDigit) →
       coerceArgumentValue (.str "integer") (.str s) .none .none
         = .ok (.int (-(decimalVal ds : Int)))) ∧
    (∀ qs : List Rat, (∀ q ∈ qs, q.den = 1) →
       coerceArgumentValue (.str "array") (.list (qs.map .float))
         (.dict [("type", .str "integer")]) .none
         = .ok (.list (qs.map fun q => .int q.num))) := by
  refine ⟨?_, ?_, ?_, ?_, ?_, ?_, ?_⟩
  · intro b
    simp [coerceArgumentValue, resolveArgType, PyVal.truthy, PyVal.isNone, pyLower]
  · intro z
    simp [coerceArgumentValue, resolveArgType, PyVal.truthy, PyVal.isNone, pyLower]
  · intro q hq
    simp [coerceArgumentValue, resolveArgType, PyVal.truthy, PyVal.isNone,
      pyLower, hq]
  · intro q
    by_cases hq : q.den = 1
    · simp [coerceArgumentValue, resolveArgType, PyVal.truthy, PyVal.isNone,
        pyLower, hq, Int.tdiv_one]
    · simp [coerceArgumentValue, resolveArgType, PyVal.truthy, PyVal.isNone,
        pyLower, hq]
  · intro s hne hd
    have h := pyIntOfString_digits s hne hd
    simp [coerceArgumentValue, resolveArgType, PyVal.truthy, PyVal.isNone,
      pyLower, h]
  · intro s ds heq hne hd
    have h := pyIntOfString_neg_digits s ds heq hne hd
    simp [coerceArgumentValue, resolveArgType, PyVal.truthy, PyVal.isNone,
      pyLower, h]
  · intro qs h
    have := coerceItems_integral_floats qs 0 h
    simp [coerceArgumentValue, resolveArgType, PyVal.truthy, PyVal.isNone,
      pyLower, coerceArrayWithItems, PyVal.lookup, this]

/-- Witness for the amended C2 at concrete inputs: `"  42 "` parses to
`42`, `"-7"` to `-7`, the integral float `2.0` to `2`, and
`[1.0, 2.0, 3.0]` with integer items to `[1, 2, 3]`. -/
theorem C2_amended_witness :
    coerceArgumentValue (.str "integer") (.str "  42 ") .none .none
      = .ok (.int 42) ∧
    coerceArgumentValue (.str "integer") (.str "-7") .none .none
      = .ok (.int (-7)) ∧
    coerceArgumentValue (.str "integer") (.float 2) .none .none
      = .ok (.int 2) ∧
    coerceArgumentValue (.str "array") (.list [.float 1, .float 2, .float 3])
      (.dict [("type", .str "integer")]) .none
      = .ok (.list [.int 1, .int 2, .int 3]) := by
  obtain ⟨_, _, hfl, _, hstr, hneg, harr⟩ := C2_integer_coercion_amended
  refine ⟨?_, ?_, ?_, ?_⟩
  · have h := hstr "  42 " (by decide) (by decide)
    rw [h]
    rfl
  · have h := hneg "-7" ['7'] (by decide) (by decide) (by decide)
    rw [h]
    rfl
  · have h := hfl 2 (by norm_num)
    rw [h]
    norm_num
  · have h := harr [1, 2, 3] (by intro q hq; fin_cases hq <;> norm_num)
    simp only [List.map_cons, List.map_nil] at h
    rw [h]
    norm_num

/-! ### Dict lemmas shared by the argument-preparation theorems -/

theorem PyVal.lookup_insert_self (kvs : List (String × PyVal)) (k : String)
    (v : PyVal) : PyVal.lookup (PyVal.insert kvs k v) k = some v := by
  induction kvs with
  | nil => simp [PyVal.insert, PyVal.lookup]
  | cons kv rest ih =>
    obtain ⟨k', v'⟩ := kv
    by_cases h : k' = k
    · simp [PyVal.insert, PyVal.lookup, h]
    · simp [PyVal.insert, PyVal.lookup, h, ih]

theorem PyVal.lookup_insert_ne (kvs : List (String × PyVal)) (k' k : String)
    (v : PyVal) (hne : k' ≠ k) :
    PyVal.lookup (PyVal.insert kvs k' v) k = PyVal.lookup kvs k := by
  induction kvs with
  | nil => simp [PyVal.insert, PyVal.lookup, hne]
  | cons kv rest ih =>
    obtain ⟨k1, v1⟩ := kv
    by_cases h : k1 = k'
    · subst h
      simp [PyVal.insert, PyVal.lookup, hne]
    · simp [PyVal.insert, PyVal.lookup, h, ih]

/-- The passthrough loop never disturbs a binding already present. -/
theorem objPassthrough_preserves :
    ∀ (l acc : List (String × PyVal)) (k : String) (w : PyVal),
      PyVal.lookup acc k = some w →
      PyVal.lookup (objPassthrough acc l) k = some w := by
  intro l
  induction l with
  | nil => intro acc k w h; simpa [objPassthrough] using h
  | cons kv rest ih =>
    intro acc k w h
    obtain ⟨k1, v1⟩ := kv
    by_cases hk : PyVal.hasKey acc k1
    · simp [objPassthrough, hk]
      exact ih acc k w h
    · simp [objPassthrough, hk]
      apply ih
      by_cases he : k1 = k
      · subst he
        exfalso
        simp [PyVal.hasKey, h] at hk
      · rw [PyVal.lookup_insert_ne _ _ _ _ he]
        exact h

/-- A key the schema loop did not produce is carried through verbatim from
the input (first occurrence wins, as in a duplicate-free dict). -/
theorem objPassthrough_carries :
    ∀ (l acc : List (String × PyVal)) (k : String) (w : PyVal),
      PyVal.lookup acc k = Option.none →
      PyVal.lookup l k = some w →
      PyVal.lookup (objPassthrough acc l) k = some w := by
  intro l
  induction l with
  | nil => intro acc k w _ h2; simp [PyVal.lookup] at h2
  | cons kv rest ih =>
    intro acc k w h1 h2
    obtain ⟨k1, v1⟩ := kv
    by_cases he : k1 = k
    · subst he
      simp [PyVal.lookup] at h2
      subst h2
      have hk : ¬PyVal.hasKey acc k1 := by
        simp [PyVal.hasKey, h1]
      simp [objPassthrough, hk]
      exact objPassthrough_preserves rest _ k1 v1
        (PyVal.lookup_insert_self acc k1 v1)
    · simp [PyVal.lookup, he] at h2
      by_cases hk : PyVal.hasKey acc k1
      · simp [objPassthrough, hk]
        exact ih acc k w h1 h2
      · simp [objPassthrough, hk]
        exact ih _ k w (by rw [PyVal.lookup_insert_ne _ _ _ _ he]; exact h1) h2

/-- The schema loop leaves keys untouched when every schema entry carrying
that name contributes nothing. -/
theorem coerceArgsGo_skips :
    ∀ (schema : List CommandArgument) (incoming acc out : List (String × PyVal))
      (k : String),
      (∀ b ∈ schema, b.name = k → processArg b incoming = .ok Option.none) →
      coerceArgsGo incoming schema acc = .ok out →
      PyVal.lookup acc k = Option.none →
      PyVal.lookup out k = Option.none := by
  intro schema
  induction schema with
  | nil =>
    intro incoming acc out k _ hout hacc
    simp [coerceArgsGo] at hout
    subst hout
    exact hacc
  | cons b rest ih =>
    intro incoming acc out k hskip hout hacc
    simp only [coerceArgsGo] at hout
    by_cases hb : b.name = k
    · rw [hskip b (by simp) hb] at hout
      exact ih incoming acc out k
        (fun b' hb' h' => hskip b' (by simp [hb']) h') hout hacc
    · cases hpa : processArg b incoming with
      | error e => rw [hpa] at hout; cases hout
      | ok r =>
        rw [hpa] at hout
        cases r with
        | none =>
          exact ih incoming acc out k
            (fun b' hb' h' => hskip b' (by simp [hb']) h') hout hacc
        | some v =>
          refine ih incoming _ out k
            (fun b' hb' h' => hskip b' (by simp [hb']) h') hout ?_
          rw [PyVal.lookup_insert_ne _ _ _ _ hb]
          exact hacc

/-- C10: a declared argument whose inbound value is explicitly null is
treated exactly like an absent argument: with a default, preparation uses a
(deep copy of) the default; if required without default, it fails with the
missing-required-argument error; otherwise the schema loop never applies
type coercion and contributes nothing for the argument — yet the null still
appears in the prepared output, carried by the pass that preserves input
keys not produced by the schema loop. -/
theorem C10_null_treated_as_absent :
    (∀ (a : CommandArgument) (incoming : List (String × PyVal)),
       PyVal.lookup incoming a.name = some PyVal.none →
       ((a.default ≠ PyVal.none → a.enum = Option.none →
           processArg a incoming = .ok (some (pyDeepCopy a.default))) ∧
        (a.default = PyVal.none → a.required = true →
           processArg a incoming
             = .error (.valueError
                 ("Missing required argument '" ++ a.name ++ "'"))) ∧
        (a.default = PyVal.none → a.required = false →
           processArg a incoming = .ok Option.none))) ∧
    (∀ (schema : List CommandArgument) (incoming : List (String × PyVal))
       (a : CommandArgument) (out : List (String × PyVal)),
       a ∈ schema →
       (∀ b ∈ schema, b.name = a.name →
          b.default = PyVal.none ∧ b.required = false) →
       PyVal.lookup incoming a.name = some PyVal.none →
       coerceArgumentsFromSchema schema incoming = .ok out →
       PyVal.lookup out a.name = some PyVal.none) := by
  have hstep : ∀ (a : CommandArgument) (incoming : List (String × PyVal)),
      PyVal.lookup incoming a.name = some PyVal.none →
      a.default = PyVal.none → a.required = false →
      processArg a incoming = .ok Option.none := by
    intro a incoming h hdef hreq
    simp [processArg, h, PyVal.isNone, hdef, hreq]
  constructor
  · intro a incoming h
    refine ⟨?_, ?_, ?_⟩
    · intro hdef henum
      have hdef' : a.default.isNone = false := by
        cases hd : a.default <;> simp [PyVal.isNone] <;> try rfl
        exact absurd hd hdef
      simp [processArg, h, PyVal.isNone, hdef', enumCheck, henum]
    · intro hdef hreq
      simp [processArg, h, PyVal.isNone, hdef, hreq]
    · exact hstep a incoming h
  · intro schema incoming a out hmem hall h hout
    simp only [coerceArgumentsFromSchema] at hout
    cases hgo : coerceArgsGo incoming schema [] with
    | error e => rw [hgo] at hout; cases hout
    | ok normalized =>
      rw [hgo] at hout
      cases hout
      have hnorm : PyVal.lookup normalized a.name = Option.none :=
        coerceArgsGo_skips schema incoming [] normalized a.name
          (fun b hb hbn => by
            obtain ⟨hd, hr⟩ := hall b hb hbn
            exact hstep b incoming (hbn ▸ h) hd hr)
          hgo (by simp [PyVal.lookup])
      exact objPassthrough_carries incoming normalized a.name PyVal.none
        hnorm h

/-- Witness for C10: schema `[opt: default 5, req: required, plain]` with
all three inbound nulls — prepared output takes the default for `opt`,
errors naming `req` when `req` is null, and carries the raw null for
`plain` when `req` is supplied. -/
theorem C10_witness :
    processArg { name := "opt", default := .int 5 } [("opt", PyVal.none)]
      = .ok (some (.int 5)) ∧
    coerceArgumentsFromSchema
        [{ name := "req", required := true }, { name := "plain" }]
        [("req", PyVal.none)]
      = .error (.valueError "Missing required argument 'req'") ∧
    (∃ out, coerceArgumentsFromSchema [{ name := "plain" }]
        [("plain", PyVal.none), ("req", .int 1)] = .ok out ∧
      PyVal.lookup out "plain" = some PyVal.none) := by
  obtain ⟨hstep, hfull⟩ := C10_null_treated_as_absent
  refine ⟨?_, ?_, ?_⟩
  · exact (hstep { name := "opt", default := .int 5 } [("opt", PyVal.none)]
      (by simp [PyVal.lookup])).1 (by simp) rfl
  · have := (hstep { name := "req", required := true } [("req", PyVal.none)]
      (by simp [PyVal.lookup])).2.1 rfl rfl
    simp [coerceArgumentsFromSchema, coerceArgsGo, this]
  · refine ⟨[("plain", PyVal.none), ("req", .int 1)], ?_, ?_⟩
    · have h3 := (hstep { name := "plain" }
        [("plain", PyVal.none), ("req", .int 1)] (by simp [PyVal.lookup])).2.2
        rfl rfl
      simp [coerceArgumentsFromSchema, coerceArgsGo, h3, objPassthrough,
        PyVal.hasKey, PyVal.lookup, PyVal.insert]
    · exact hfull [{ name := "plain" }] [("plain", PyVal.none), ("req", .int 1)]
        { name := "plain" } [("plain", PyVal.none), ("req", .int 1)]
        (by simp) (fun b hb _ => by simp at hb; simp [hb])
        (by simp [PyVal.lookup])
        (by
          have h3 := (hstep { name := "plain" }
            [("plain", PyVal.none), ("req", .int 1)] (by simp [PyVal.lookup])).2.2
            rfl rfl
          simp [coerceArgumentsFromSchema, coerceArgsGo, h3, objPassthrough,
            PyVal.hasKey, PyVal.lookup, PyVal.insert])

/-! ### C5: object coercion -/

theorem objPassthrough_absent :
    ∀ (l acc : List (String × PyVal)) (k : String),
      PyVal.lookup acc k = Option.none →
      PyVal.lookup l k = Option.none →
      PyVal.lookup (objPassthrough acc l) k = Option.none := by
  intro l
  induction l with
  | nil => intro acc k h1 _; simpa [objPassthrough] using h1
  | cons kv rest ih =>
    intro acc k h1 h2
    obtain ⟨k1, v1⟩ := kv
    have hne : k1 ≠ k := by
      intro he
      subst he
      simp [PyVal.lookup] at h2
    simp [PyVal.lookup, hne] at h2
    by_cases hk : PyVal.hasKey acc k1
    · simp [objPassthrough, hk]
      exact ih acc k h1 h2
    · simp [objPassthrough, hk]
      exact ih _ k (by rw [PyVal.lookup_insert_ne _ _ _ _ hne]; exact h1) h2

/-- Reduce a property-loop step on a non-dict schema value. -/
theorem coerceProps_cons_nondict (pname : String) (v : PyVal)
    (rest obj acc : List (String × PyVal))
    (hv : ∀ ikvs : List (String × PyVal), v ≠ PyVal.dict ikvs) :
    coerceProps ((pname, v) :: rest) obj acc
      = .error (.attributeError
          ("'" ++ pyTypeName v ++ "' object has no attribute 'get'")) := by
  rw [coerceProps.eq_3 obj acc pname v rest (fun ikvs h => hv ikvs h)]
  split <;> rfl

/-- Reduce a property-loop step when the property is present and its value
coerces. -/
theorem coerceProps_cons_found (pname : String)
    (skvs rest obj acc : List (String × PyVal)) (pv cv : PyVal)
    (hlo : PyVal.lookup obj pname = some pv)
    (hco : coerceArgumentValue ((PyVal.lookup skvs "type").getD (.str "string"))
        pv ((PyVal.lookup skvs "items").getD .none)
        ((PyVal.lookup skvs "properties").getD .none) = .ok cv) :
    coerceProps ((pname, .dict skvs) :: rest) obj acc
      = coerceProps rest obj (PyVal.insert acc pname cv) := by
  rw [coerceProps.eq_2, hlo]
  dsimp only
  rw [hco]

/-- Reduce a property-loop step when a non-required property is absent. -/
theorem coerceProps_cons_absent_opt (pname : String)
    (skvs rest obj acc : List (String × PyVal))
    (hlo : PyVal.lookup obj pname = Option.none)
    (hnr : ((PyVal.lookup skvs "required").getD (.bool false)).truthy = false) :
    coerceProps ((pname, .dict skvs) :: rest) obj acc
      = coerceProps rest obj acc := by
  rw [coerceProps.eq_2, hlo]
  dsimp only
  simp [hnr]

/-- A key absent from the input mapping is never produced by the property
loop. -/
theorem coerceProps_absent_key :
    ∀ (props obj acc out : List (String × PyVal)) (k : String),
      coerceProps props obj acc = .ok out →
      PyVal.lookup obj k = Option.none →
      PyVal.lookup acc k = Option.none →
      PyVal.lookup out k = Option.none := by
  intro props
  induction props with
  | nil =>
    intro obj acc out k hout _ hacc
    rw [coerceProps.eq_1] at hout
    cases hout
    exact hacc
  | cons entry rest ih =>
    intro obj acc out k hout hobj hacc
    obtain ⟨pname, pschema⟩ := entry
    cases pschema with
    | dict skvs =>
      rw [coerceProps.eq_2] at hout
      split at hout
      · rename_i pv hlo
        have hne : pname ≠ k := fun he => by rw [he, hobj] at hlo; cases hlo
        dsimp only at hout
        split at hout
        · exact ih obj _ out k hout hobj
            (by rw [PyVal.lookup_insert_ne _ _ _ _ hne]; exact hacc)
        · cases hout
        · cases hout
        · cases hout
      · split at hout
        · cases hout
        · exact ih obj acc out k hout hobj hacc
    | none => rw [coerceProps_cons_nondict _ _ _ _ _ (by intro _ h; cases h)] at hout; cases hout
    | bool b => rw [coerceProps_cons_nondict _ _ _ _ _ (by intro _ h; cases h)] at hout; cases hout
    | int z => rw [coerceProps_cons_nondict _ _ _ _ _ (by intro _ h; cases h)] at hout; cases hout
    | float q => rw [coerceProps_cons_nondict _ _ _ _ _ (by intro _ h; cases h)] at hout; cases hout
    | str s => rw [coerceProps_cons_nondict _ _ _ _ _ (by intro _ h; cases h)] at hout; cases hout
    | list xs => rw [coerceProps_cons_nondict _ _ _ _ _ (by intro _ h; cases h)] at hout; cases hout

/-- A key not declared in the properties schema is never produced by the
property loop. -/
theorem coerceProps_nonprop_key :
    ∀ (props obj acc out : List (String × PyVal)) (k : String),
      coerceProps props obj acc = .ok out →
      k ∉ props.map Prod.fst →
      PyVal.lookup acc k = Option.none →
      PyVal.lookup out k = Option.none := by
  intro props
  induction props with
  | nil =>
    intro obj acc out k hout _ hacc
    rw [coerceProps.eq_1] at hout
    cases hout
    exact hacc
  | cons entry rest ih =>
    intro obj acc out k hout hk hacc
    obtain ⟨pname, pschema⟩ := entry
    have hne : pname ≠ k := by
      intro he
      subst he
      simp at hk
    have hk' : k ∉ rest.map Prod.fst := by
      simp at hk ⊢
      intro x hx
      exact hk.2 x hx
    cases pschema with
    | dict skvs =>
      rw [coerceProps.eq_2] at hout
      split at hout
      · dsimp only at hout
        split at hout
        · exact ih obj _ out k hout hk'
            (by rw [PyVal.lookup_insert_ne _ _ _ _ hne]; exact hacc)
        · cases hout
        · cases hout
        · cases hout
      · split at hout
        · cases hout
        · exact ih obj acc out k hout hk' hacc
    | none => rw [coerceProps_cons_nondict _ _ _ _ _ (by intro _ h; cases h)] at hout; cases hout
    | bool b => rw [coerceProps_cons_nondict _ _ _ _ _ (by intro _ h; cases h)] at hout; cases hout
    | int z => rw [coerceProps_cons_nondict _ _ _ _ _ (by intro _ h; cases h)] at hout; cases hout
    | float q => rw [coerceProps_cons_nondict _ _ _ _ _ (by intro _ h; cases h)] at hout; cases hout
    | str s => rw [coerceProps_cons_nondict _ _ _ _ _ (by intro _ h; cases h)] at hout; cases hout
    | list xs => rw [coerceProps_cons_nondict _ _ _ _ _ (by intro _ h; cases h)] at hout; cases hout

/-- The property loop over a concatenation runs the prefix first. -/
theorem coerceProps_append :
    ∀ (pre rest obj acc : List (String × PyVal)),
      coerceProps (pre ++ rest) obj acc
        = match coerceProps pre obj acc with
          | .ok acc2 => coerceProps rest obj acc2
          | .error e => .error e := by
  intro pre
  induction pre with
  | nil => intro rest obj acc; rw [coerceProps.eq_1]; simp
  | cons entry pre2 ih =>
    intro rest obj acc
    obtain ⟨pname, pschema⟩ := entry
    cases pschema with
    | dict skvs =>
      rw [List.cons_append, coerceProps.eq_2, coerceProps.eq_2]
      split
      · dsimp only
        split
        · exact ih rest obj _
        · rfl
        · rfl
        · rfl
      · split
        · rfl
        · exact ih rest obj acc
    | none =>
      rw [List.cons_append, coerceProps_cons_nondict _ _ _ _ _ (by intro _ h; cases h),
        coerceProps_cons_nondict _ _ _ _ _ (by intro _ h; cases h)]
    | bool b =>
      rw [List.cons_append, coerceProps_cons_nondict _ _ _ _ _ (by intro _ h; cases h),
        coerceProps_cons_nondict _ _ _ _ _ (by intro _ h; cases h)]
    | int z =>
      rw [List.cons_append, coerceProps_cons_nondict _ _ _ _ _ (by intro _ h; cases h),
        coerceProps_cons_nondict _ _ _ _ _ (by intro _ h; cases h)]
    | float q =>
      rw [List.cons_append, coerceProps_cons_nondict _ _ _ _ _ (by intro _ h; cases h),
        coerceProps_cons_nondict _ _ _ _ _ (by intro _ h; cases h)]
    | str s =>
      rw [List.cons_append, coerceProps_cons_nondict _ _ _ _ _ (by intro _ h; cases h),
        coerceProps_cons_nondict _ _ _ _ _ (by intro _ h; cases h)]
    | list xs =>
      rw [List.cons_append, coerceProps_cons_nondict _ _ _ _ _ (by intro _ h; cases h),
        coerceProps_cons_nondict _ _ _ _ _ (by intro _ h; cases h)]


/-- Unfolding of the object branch on a mapping value. -/
theorem coerce_object_dict (props obj : List (String × PyVal)) :
    coerceArgumentValue (.str "object") (.dict obj) .none (.dict props)
      = coerceObjectWithProps (.dict props) obj := by
  simp [coerceArgumentValue, resolveArgType, PyVal.truthy, PyVal.isNone, pyLower]

/-- Unfolding of `coerceObjectWithProps` on a non-empty properties schema. -/
theorem coerceObjectWithProps_cons (props obj : List (String × PyVal))
    (h : props ≠ []) :
    coerceObjectWithProps (.dict props) obj
      = match coerceProps props obj [] with
        | .ok coerced => .ok (.dict (objPassthrough coerced obj))
        | .error e => .error e := by
  have ht : (PyVal.dict props).truthy = true := by
    simp [PyVal.truthy, h]
  simp only [coerceObjectWithProps, ht, if_pos]

/-- C5: object coercion with a properties schema — a declared property
absent from the input mapping is omitted from the output when coercion
succeeds; every input key not declared in the schema is preserved verbatim;
and a declared property marked required that is absent fails the coercion
with an error naming that property (provided the declared properties before
it process without error, since the loop stops at the first failure). -/
theorem C5_object_properties :
    (∀ (props obj outD : List (String × PyVal)) (p : String) (sch : PyVal),
       (p, sch) ∈ props →
       PyVal.lookup obj p = Option.none →
       coerceArgumentValue (.str "object") (.dict obj) .none (.dict props)
         = .ok (.dict outD) →
       PyVal.lookup outD p = Option.none) ∧
    (∀ (props obj outD : List (String × PyVal)) (k : String) (w : PyVal),
       coerceArgumentValue (.str "object") (.dict obj) .none (.dict props)
         = .ok (.dict outD) →
       PyVal.lookup obj k = some w →
       k ∉ props.map Prod.fst →
       PyVal.lookup outD k = some w) ∧
    (∀ (pre suf obj acc2 : List (String × PyVal)) (p : String)
       (skvs : List (String × PyVal)),
       PyVal.lookup obj p = Option.none →
       ((PyVal.lookup skvs "required").getD (.bool false)).truthy = true →
       coerceProps pre obj [] = .ok acc2 →
       coerceArgumentValue (.str "object") (.dict obj) .none
           (.dict (pre ++ (p, .dict skvs) :: suf))
         = .error (.valueError
             ("Object is missing required property '" ++ p ++ "'"))) := by
  refine ⟨?_, ?_, ?_⟩
  · intro props obj outD p sch hmem hobj hok
    rw [coerce_object_dict] at hok
    have hne : props ≠ [] := by
      intro h
      rw [h] at hmem
      cases hmem
    rw [coerceObjectWithProps_cons props obj hne] at hok
    cases hcp : coerceProps props obj [] with
    | error e => rw [hcp] at hok; cases hok
    | ok coerced =>
      rw [hcp] at hok
      cases hok
      have hc := coerceProps_absent_key props obj [] coerced p hcp hobj
        (by simp [PyVal.lookup])
      exact objPassthrough_absent obj coerced p hc hobj
  · intro props obj outD k w hok hobj hk
    cases hpe : props with
    | nil =>
      rw [hpe, coerce_object_dict] at hok
      simp [coerceObjectWithProps, PyVal.truthy] at hok
      rw [← hok]
      exact hobj
    | cons e rest =>
      have hne : props ≠ [] := by simp [hpe]
      rw [coerce_object_dict, coerceObjectWithProps_cons props obj hne] at hok
      cases hcp : coerceProps props obj [] with
      | error e2 => rw [hcp] at hok; cases hok
      | ok coerced =>
        rw [hcp] at hok
        cases hok
        have hc := coerceProps_nonprop_key props obj [] coerced k hcp hk
          (by simp [PyVal.lookup])
        exact objPassthrough_carries obj coerced k w hc hobj
  · intro pre suf obj acc2 p skvs hobj hreq hpre
    have hne : pre ++ (p, PyVal.dict skvs) :: suf ≠ [] := by simp
    rw [coerce_object_dict, coerceObjectWithProps_cons _ obj hne,
      coerceProps_append, hpre]
    dsimp only
    rw [coerceProps.eq_2, hobj]
    dsimp only
    simp [hreq]

/-- Witness for C5 at a concrete schema
`{name: string, age: integer required}`: an input with only undeclared key
`x` plus `name` keeps `x` verbatim, omits `age`... and an input missing
`age` errors naming it. -/
theorem C5_witness :
    (∃ outD,
      coerceArgumentValue (.str "object")
          (.dict [("name", .str "Alice"), ("x", .int 7)]) .none
          (.dict [("name", .dict [("type", .str "string")]),
                  ("note", .dict [("type", .str "string")])])
        = .ok (.dict outD) ∧
      PyVal.lookup outD "note" = Option.none ∧
      PyVal.lookup outD "x" = some (.int 7)) ∧
    coerceArgumentValue (.str "object")
        (.dict [("name", .str "Alice")]) .none
        (.dict [("name", .dict [("type", .str "string")]),
                ("age", .dict [("type", .str "integer"),
                               ("required", .bool true)])])
      = .error (.valueError "Object is missing required property 'age'") := by
  obtain ⟨homit, hkeep, hreq⟩ := C5_object_properties
  have hs : coerceArgumentValue ((PyVal.lookup [("type", PyVal.str "string")] "type").getD
        (PyVal.str "string")) (.str "Alice")
        ((PyVal.lookup [("type", PyVal.str "string")] "items").getD .none)
        ((PyVal.lookup [("type", PyVal.str "string")] "properties").getD .none)
      = .ok (.str "Alice") := by
    simp [coerceArgumentValue, resolveArgType, PyVal.truthy, PyVal.isNone,
      pyLower, PyVal.lookup, pyStr]
  have hok : coerceArgumentValue (.str "object")
      (.dict [("name", .str "Alice"), ("x", .int 7)]) .none
      (.dict [("name", .dict [("type", .str "string")]),
              ("note", .dict [("type", .str "string")])])
      = .ok (.dict [("name", .str "Alice"), ("x", .int 7)]) := by
    rw [coerce_object_dict, coerceObjectWithProps_cons _ _ (by simp)]
    rw [coerceProps_cons_found "name" [("type", PyVal.str "string")]
        [("note", PyVal.dict [("type", PyVal.str "string")])]
        [("name", PyVal.str "Alice"), ("x", PyVal.int 7)] [] (.str "Alice")
        (.str "Alice") (by rfl) hs]
    rw [coerceProps_cons_absent_opt "note" [("type", PyVal.str "string")] []
        [("name", PyVal.str "Alice"), ("x", PyVal.int 7)]
        (PyVal.insert [] "name" (.str "Alice")) (by rfl) (by rfl)]
    rw [coerceProps.eq_1]
    rfl
  refine ⟨⟨[("name", .str "Alice"), ("x", .int 7)], hok, ?_, ?_⟩, ?_⟩
  · exact homit _ _ _ "note" (.dict [("type", .str "string")]) (by simp)
      (by rfl) hok
  · exact hkeep _ _ _ "x" (.int 7) hok (by rfl) (by simp)
  · exact hreq [("name", .dict [("type", .str "string")])] [] _ _ "age" _
      (by rfl) (by rfl)
      (by
        rw [coerceProps_cons_found "name" [("type", PyVal.str "string")] []
          [("name", PyVal.str "Alice")] [] (.str "Alice") (.str "Alice")
          (by rfl) hs]
        rw [coerceProps.eq_1])

/-! ### C7: missing required argument -/

/-- Whether a list of characters starts with another. -/
def startsWithList : List Char → List Char → Bool
  | [], _ => true
  | _ :: _, [] => false
  | a :: as, b :: bs => a = b && startsWithList as bs

/-- Whether `sub` occurs inside `l`. -/
def listContainsSub (sub : List Char) : List Char → Bool
  | [] => sub.isEmpty
  | c :: rest => startsWithList sub (c :: rest) || listContainsSub sub rest

/-- Whether `sub` occurs inside `s` ("the message names `sub`"). -/
def strContains (s sub : String) : Bool :=
  listContainsSub sub.data s.data

/-- Whether the dispatch trace shows the handler being invoked or the
command being submitted to the worker pool. -/
def handlerRan (tr : List Trace) : Bool :=
  tr.any fun t =>
    match t with
    | .handlerInvoked _ _ => true
    | .asyncSubmitted _ => true
    | _ => false

/-- The schema-loop step fails with the missing-argument error for a
required, defaultless argument that is absent or null. -/
theorem processArg_missing (a : CommandArgument)
    (incoming : List (String × PyVal))
    (h : PyVal.lookup incoming a.name = Option.none
         ∨ PyVal.lookup incoming a.name = some PyVal.none)
    (hdef : a.default = PyVal.none) (hreq : a.required = true) :
    processArg a incoming
      = .error (.valueError ("Missing required argument '" ++ a.name ++ "'")) := by
  rcases h with h | h <;> simp [processArg, h, PyVal.isNone, hdef, hreq]

/-- The schema loop propagates the first failing argument's error. -/
theorem coerceArgsGo_first_error :
    ∀ (pre : List CommandArgument) (incoming acc : List (String × PyVal))
      (a : CommandArgument) (post : List CommandArgument) (e : PyErr),
      (∀ b ∈ pre, ∃ r, processArg b incoming = .ok r) →
      processArg a incoming = .error e →
      coerceArgsGo incoming (pre ++ a :: post) acc = .error e := by
  intro pre
  induction pre with
  | nil =>
    intro incoming acc a post e _ ha
    simp [coerceArgsGo, ha]
  | cons b pre' ih =>
    intro incoming acc a post e hpre ha
    obtain ⟨r, hr⟩ := hpre b (by simp)
    have hrest : ∀ b' ∈ pre', ∃ r, processArg b' incoming = .ok r :=
      fun b' hb' => hpre b' (by simp [hb'])
    cases r with
    | none => simp [coerceArgsGo, hr, ih incoming acc a post e hrest ha]
    | some v => simp [coerceArgsGo, hr, ih incoming _ a post e hrest ha]

/-- C7 (amended): dispatching a command whose stored schema declares a
required argument (no default) that is absent or null sends exactly one
failure response and never invokes the handler; the response's error names
the missing argument provided every schema argument before it processes
without error (the preparation loop stops at the first failure, so an
earlier argument failing coercion yields that failure's message instead —
see the counterexample). -/
theorem C7_missing_required_amended
    (st : AgentState) (cmd : CommandMessage) (name : String)
    (handler : HandlerSpec) (inc : List (String × PyVal))
    (pre post : List CommandArgument) (a : CommandArgument)
    (hcmd : cmd.command = .str name)
    (hname : name ≠ "__list_commands")
    (hh : assocLookup st.commandHandlers name = some handler)
    (hs : assocLookup st.argumentSchemas name = some (pre ++ a :: post))
    (hargs : cmd.args = .dict inc)
    (hpre : ∀ b ∈ pre, ∃ r, processArg b inc = .ok r)
    (habs : PyVal.lookup inc a.name = Option.none
            ∨ PyVal.lookup inc a.name = some PyVal.none)
    (hdef : a.default = PyVal.none) (hreq : a.required = true) :
    (handleCommand st cmd).trace
      = [.response false cmd.id Option.none
          (some ("Missing required argument '" ++ a.name ++ "'"))] ∧
    (handleCommand st cmd).escaped = Option.none ∧
    handlerRan (handleCommand st cmd).trace = false := by
  have hpe : pyEq (PyVal.str name) (.str "__list_commands") = false := by
    simp [pyEq, hname]
  have hme := processArg_missing a inc habs hdef hreq
  have hgo := coerceArgsGo_first_error pre inc [] a post _ hpre hme
  have hlh : lookupByPyKey st.commandHandlers (PyVal.str name) = some handler := by
    simp [lookupByPyKey, hh]
  have hprep : prepareCommandArguments
      (lookupByPyKey st.commandMetadata (PyVal.str name))
      (lookupByPyKey st.argumentSchemas (PyVal.str name)) (PyVal.dict inc)
      = .error (.valueError ("Missing required argument '" ++ a.name ++ "'")) := by
    simp only [lookupByPyKey, hs]
    by_cases hinc : inc = []
    · subst hinc
      simp [prepareCommandArguments, PyVal.truthy, coerceArgumentsFromSchema, hgo]
    · have ht : (PyVal.dict inc).truthy = true := by simp [PyVal.truthy, hinc]
      simp [prepareCommandArguments, ht, coerceArgumentsFromSchema, hgo]
  refine ⟨?_, ?_, ?_⟩ <;>
    cases hres : resolveInvocationDir cmd.working_dir st.invocationDir with
  | none => simp [handleCommand, hres, hcmd, hargs, hpe, hlh, hprep, handlerRan]
  | some d =>
    by_cases hd : d = "" <;>
      simp [handleCommand, hres, hd, hcmd, hargs, hpe, hlh, hprep, handlerRan]

/-- C7 falsified as stated: with schema `[x: integer, y: string required]`
and inbound args `{x: "abc"}`, the required argument `y` is absent, yet the
failure response carries the coercion error of `x` — a message that does
not name `y` (it does not even contain the letter `y`).  The handler is
still never invoked. -/
theorem C7_counterexample :
    (handleCommand
        { commandHandlers := [("cmd", .returns (.str "ok"))]
          commandMetadata := [("cmd", { name := "cmd" })]
          argumentSchemas :=
            [("cmd", [{ name := "x", type := "integer" },
                      { name := "y", type := "string", required := true }])] }
        { command := .str "cmd", args := .dict [("x", .str "abc")]
          id := .str "1", working_dir := .none }).trace
      = [.response false (.str "1") Option.none
          (some "invalid literal for int() with base 10: 'abc'")] ∧
    strContains "invalid literal for int() with base 10: 'abc'" "y" = false ∧
    handlerRan (handleCommand
        { commandHandlers := [("cmd", .returns (.str "ok"))]
          commandMetadata := [("cmd", { name := "cmd" })]
          argumentSchemas :=
            [("cmd", [{ name := "x", type := "integer" },
                      { name := "y", type := "string", required := true }])] }
        { command := .str "cmd", args := .dict [("x", .str "abc")]
          id := .str "1", working_dir := .none }).trace = false := by
  have hco : coerceArgumentValue (.str "integer") (.str "abc") .none .none
      = .error (.valueError "invalid literal for int() with base 10: 'abc'") := by
    simp [coerceArgumentValue, resolveArgType, PyVal.truthy, PyVal.isNone,
      pyLower]
    rw [show pyIntOfString "abc"
        = .error (.valueError "invalid literal for int() with base 10: 'abc'") from by
      unfold pyIntOfString
      dsimp only
      rw [show (pyStrip "abc").data = ['a', 'b', 'c'] from rfl]
      rw [show pyRepr (.str "abc") = "'abc'" from by rw [pyRepr.eq_5]; rfl]
      rfl]
  have hpa : processArg { name := "x", type := "integer" }
      [("x", PyVal.str "abc")]
      = .error (.valueError "invalid literal for int() with base 10: 'abc'") := by
    simp [processArg, PyVal.lookup, PyVal.isNone, hco]
  have hgo := coerceArgsGo_first_error []
    [("x", PyVal.str "abc")] [] { name := "x", type := "integer" }
    [{ name := "y", type := "string", required := true }] _ (by simp) hpa
  simp only [List.nil_append] at hgo
  have hprep : prepareCommandArguments
      (some { name := "cmd" })
      (some [{ name := "x", type := "integer" },
             { name := "y", type := "string", required := true }])
      (.dict [("x", PyVal.str "abc")])
      = .error (.valueError "invalid literal for int() with base 10: 'abc'") := by
    simp [prepareCommandArguments, PyVal.truthy, coerceArgumentsFromSchema, hgo]
  refine ⟨?_, by decide, ?_⟩ <;>
    simp [handleCommand, resolveInvocationDir, PyVal.truthy, pyEq,
      lookupByPyKey, assocLookup, hprep, handlerRan]

/-- Witness for the amended C7: a command with a single required argument
`y` dispatched with empty args responds with the missing-`y` failure and
never runs the handler. -/
theorem C7_amended_witness :
    (handleCommand
        { commandHandlers := [("greet", .returns (.str "hi"))]
          commandMetadata := [("greet", { name := "greet" })]
          argumentSchemas :=
            [("greet", [{ name := "y", type := "string", required := true }])] }
        { command := .str "greet", args := .dict []
          id := .str "7", working_dir := .none }).trace
      = [.response false (.str "7") Option.none
          (some "Missing required argument 'y'")] ∧
    handlerRan (handleCommand
        { commandHandlers := [("greet", .returns (.str "hi"))]
          commandMetadata := [("greet", { name := "greet" })]
          argumentSchemas :=
            [("greet", [{ name := "y", type := "string", required := true }])] }
        { command := .str "greet", args := .dict []
          id := .str "7", working_dir := .none }).trace = false := by
  obtain ⟨h1, _, h3⟩ := C7_missing_required_amended
    { commandHandlers := [("greet", .returns (.str "hi"))]
      commandMetadata := [("greet", { name := "greet" })]
      argumentSchemas :=
        [("greet", [{ name := "y", type := "string", required := true }])] }
    { command := .str "greet", args := .dict []
      id := .str "7", working_dir := .none }
    "greet" (.returns (.str "hi")) [] []
    [] { name := "y", type := "string", required := true }
    rfl (by decide) rfl (by simp [assocLookup]) rfl
    (by intro b hb; cases hb)
    (Or.inl rfl) rfl rfl
  exact ⟨h1, h3⟩

/-! ### C1: reader-loop decode errors -/

/-- C1 (amended): a non-empty line that fails to parse as JSON
(`json.JSONDecodeError`) is silently discarded — no envelope is emitted and
reading continues with the next line; but a line that parses as JSON and
then fails envelope validation (missing/unknown/non-string kind, non-mapping
document) raises outside the `JSONDecodeError` handler: the loop emits an
error envelope and terminates, leaving all subsequent lines unread. -/
theorem C1_reader_loop_amended :
    (∀ (now : String) (st : AgentState) (line : String) (rest : List String),
       pyStrip line ≠ "" →
       (∃ e, jsonLoads (pyStrip line) = .error e) →
       readLoop now st (line :: rest) = readLoop now st rest) ∧
    (∀ (now : String) (st : AgentState) (line : String) (rest : List String)
       (v : PyVal) (e : PyErr),
       pyStrip line ≠ "" →
       jsonLoads (pyStrip line) = .ok v →
       Message.fromJson now v = .error e →
       readLoop now st (line :: rest)
         = (st, [.errorEnvelope ("Error reading manager message: "
             ++ e.message)])) := by
  constructor
  · intro now st line rest hne ⟨e, herr⟩
    simp [readLoop, hne, herr]
  · intro now st line rest v e hne hok herr
    simp [readLoop, hne, hok, herr]

/-- C1 falsified as stated: the line `{"type": "bogus"}` is valid JSON but
not a valid envelope; the claim says it is silently discarded with reading
continuing, but the loop emits an error envelope and stops — the following
line, which alone would produce a response, is never processed. -/
theorem C1_counterexample :
    readLoop "T" { }
        ["\x7b\"type\": \"bogus\"\x7d",
         "\x7b\"type\": \"command\", \"data\": \x7b\"command\": \"x\"\x7d\x7d"]
      = ({ }, [.errorEnvelope
          "Error reading manager message: 'bogus' is not a valid MessageType"]) ∧
    readLoop "T" { }
        ["\x7b\"type\": \"command\", \"data\": \x7b\"command\": \"x\"\x7d\x7d"]
      = ({ }, [.response false PyVal.none Option.none
          (some "Unknown command: x")]) := by
  constructor
  · have hmsg : Message.fromJson "T" (.dict [("type", PyVal.str "bogus")])
        = .error (.valueError "'bogus' is not a valid MessageType") := by
      simp [Message.fromJson, PyVal.lookup, MessageType.ofString?]
      rw [pyRepr.eq_5]
      rfl
    have hne : pyStrip "\x7b\"type\": \"bogus\"\x7d" ≠ "" := by decide
    have hparse : jsonLoads (pyStrip "\x7b\"type\": \"bogus\"\x7d")
        = .ok (.dict [("type", PyVal.str "bogus")]) := by rfl
    simp [readLoop, hne, hparse, hmsg]
    rfl
  · have hparse : jsonLoads (pyStrip "\x7b\"type\": \"command\", \"data\": \x7b\"command\": \"x\"\x7d\x7d")
        = .ok (.dict [("type", PyVal.str "command"),
                      ("data", .dict [("command", PyVal.str "x")])]) := by rfl
    have hmsg : Message.fromJson "T" (.dict [("type", PyVal.str "command"),
        ("data", .dict [("command", PyVal.str "x")])])
        = .ok { type := .command, timestamp := .str "T"
                data := .dict [("command", PyVal.str "x")] } := by rfl
    have hcmd : handleCommand { }
        { command := .str "x", args := PyVal.none, id := PyVal.none
          working_dir := PyVal.none }
        = { state := { }, trace := [.response false PyVal.none Option.none
            (some "Unknown command: x")], escaped := Option.none } := by
      simp [handleCommand, resolveInvocationDir, PyVal.truthy, pyEq,
        lookupByPyKey, assocLookup, pyStr]
    simp [readLoop, hparse, hmsg, handleMessage, PyVal.truthy,
      CommandMessage.fromDict, PyVal.lookup, hcmd]
    decide

/-- Witness for the amended C1: a non-JSON line is skipped (reading
continues to the next line), while a valid-JSON non-envelope line produces
the error envelope and ends the loop. -/
theorem C1_amended_witness :
    readLoop "T" { } ["this is not json", "\x7b\"type\": \"bogus\"\x7d"]
      = ({ }, [.errorEnvelope
          "Error reading manager message: 'bogus' is not a valid MessageType"]) := by
  obtain ⟨hskip, hbad⟩ := C1_reader_loop_amended
  rw [hskip "T" { } "this is not json" ["\x7b\"type\": \"bogus\"\x7d"]
      (by decide) ⟨"Expecting value", by rfl⟩]
  have hmsg : Message.fromJson "T" (.dict [("type", PyVal.str "bogus")])
      = .error (.valueError "'bogus' is not a valid MessageType") := by
    simp [Message.fromJson, PyVal.lookup, MessageType.ofString?]
    rw [pyRepr.eq_5]
    rfl
  have h := hbad "T" { } "\x7b\"type\": \"bogus\"\x7d" []
    (.dict [("type", PyVal.str "bogus")])
    (.valueError "'bogus' is not a valid MessageType")
    (by decide) (by rfl) hmsg
  rw [h]
  rfl

/-! ## C8: registry listing -/

theorem charListLe_trans : ∀ as bs cs, charListLe as bs = true → charListLe bs cs = true →
    charListLe as cs = true := by
  intro as
  induction as with
  | nil => intro bs cs _ _; rfl
  | cons a as ih =>
    intro bs cs hab hbc
    cases bs with
    | nil => simp [charListLe] at hab
    | cons b bs =>
      cases cs with
      | nil => simp [charListLe] at hbc
      | cons c cs =>
        simp only [charListLe] at hab hbc ⊢
        rcases lt_trichotomy a b with h1 | h1 | h1
        · rcases lt_trichotomy b c with h2 | h2 | h2
          · simp [lt_trans h1 h2]
          · subst h2; simp [h1]
          · simp [lt_asymm h2, h2] at hbc
        · subst h1
          simp only [lt_irrefl, if_false] at hab
          rcases lt_trichotomy a c with h2 | h2 | h2
          · simp [h2]
          · subst h2
            simp only [lt_irrefl, if_false] at hbc ⊢
            exact ih _ _ hab hbc
          · simp [lt_asymm h2, h2] at hbc
        · simp [lt_asymm h1, h1] at hab

theorem charListLe_total : ∀ as bs, (charListLe as bs || charListLe bs as) = true := by
  intro as
  induction as with
  | nil => intro bs; simp [charListLe]
  | cons a as ih =>
    intro bs
    cases bs with
    | nil => simp [charListLe]
    | cons b bs =>
      simp only [charListLe]
      rcases lt_trichotomy a b with h1 | h1 | h1
      · simp [h1]
      · subst h1
        simp only [lt_irrefl, if_false]
        exact ih bs
      · simp [h1, lt_asymm h1]

theorem charListLe_antisymm : ∀ as bs, charListLe as bs = true → charListLe bs as = true →
    as = bs := by
  intro as
  induction as with
  | nil =>
    intro bs _ hba
    cases bs with
    | nil => rfl
    | cons b bs => simp [charListLe] at hba
  | cons a as ih =>
    intro bs hab hba
    cases bs with
    | nil => simp [charListLe] at hab
    | cons b bs =>
      simp only [charListLe] at hab hba
      rcases lt_trichotomy a b with h1 | h1 | h1
      · simp [lt_asymm h1, h1] at hba
      · subst h1
        simp only [lt_irrefl, if_false] at hab hba
        rw [ih bs hab hba]
      · simp [lt_asymm h1, h1] at hab

theorem pyStrLe_trans (a b c : String) (hab : pyStrLe a b = true) (hbc : pyStrLe b c = true) :
    pyStrLe a c = true :=
  charListLe_trans a.data b.data c.data hab hbc

theorem pyStrLe_total (a b : String) : (pyStrLe a b || pyStrLe b a) = true :=
  charListLe_total a.data b.data

theorem pyStrLe_antisymm (a b : String) (hab : pyStrLe a b = true) (hba : pyStrLe b a = true) :
    a = b := by
  have h := charListLe_antisymm a.data b.data hab hba
  cases a; cases b; exact congrArg String.mk h

instance : IsAntisymm String (fun a b => pyStrLe a b = true) := ⟨pyStrLe_antisymm⟩

theorem mergeSort_pyStrLe_sorted (l : List String) :
    List.Pairwise (fun a b => pyStrLe a b = true) (l.mergeSort pyStrLe) :=
  List.sorted_mergeSort (fun a b c => pyStrLe_trans a b c) pyStrLe_total l

theorem mergeSort_pyStrLe_eq (l l₂ : List String) (hperm : l₂.Perm l)
    (h2 : List.Pairwise (fun a b => pyStrLe a b = true) l₂) :
    l₂ = l.mergeSort pyStrLe := by
  apply List.eq_of_perm_of_sorted (hperm.trans (l.mergeSort_perm pyStrLe).symm) h2
  exact mergeSort_pyStrLe_sorted l

example : (["b","a"].mergeSort pyStrLe) = ["a","b"] :=
  (mergeSort_pyStrLe_eq ["b","a"] ["a","b"] (by decide) (by decide)).symm

/-- C8: dispatching the reserved name lists every registered command,
name-sorted, independent of registration order, without running a handler. -/
theorem C8_list_commands (st : AgentState) (cmd : CommandMessage)
    (hcmd : cmd.command = .str "__list_commands")
    (payload : List PyVal)
    (hpl : definitionDicts (commandDefinitions st) = .ok payload) :
    (handleCommand st cmd).trace
      = [.setContext cmd.id (resolveInvocationDir cmd.working_dir st.invocationDir),
         .response true cmd.id (some (.list payload)) Option.none,
         .clearContext] ∧
    handlerRan (handleCommand st cmd).trace = false ∧
    (∃ ns : List String,
       ns.Perm (st.commandHandlers.map Prod.fst) ∧
       List.Pairwise (fun a b => pyStrLe a b = true) ns ∧
       commandDefinitions st
         = ns.map (fun n =>
             ((assocLookup st.commandMetadata n).getD { name := n }).normalized)) ∧
    (∀ st₂ : AgentState,
       (st₂.commandHandlers.map Prod.fst).Perm (st.commandHandlers.map Prod.fst) →
       (∀ n, assocLookup st₂.commandMetadata n = assocLookup st.commandMetadata n) →
       commandDefinitions st₂ = commandDefinitions st) := by
  have hdefs : ∀ d, commandDefinitions { st with invocationDir := d }
      = commandDefinitions st := fun _ => rfl
  have htr : (handleCommand st cmd).trace
      = [.setContext cmd.id (resolveInvocationDir cmd.working_dir st.invocationDir),
         .response true cmd.id (some (.list payload)) Option.none,
         .clearContext] := by
    unfold handleCommand
    rw [hcmd]
    cases hres : resolveInvocationDir cmd.working_dir st.invocationDir with
    | none => simp [pyEq, hpl]
    | some d =>
      by_cases hd : d = ""
      · simp [pyEq, hd, hpl]
      · simp [pyEq, hd, hdefs, hpl]
  refine ⟨htr, ?_, ?_, ?_⟩
  · rw [htr]; rfl
  · refine ⟨(st.commandHandlers.map Prod.fst).mergeSort pyStrLe,
      (st.commandHandlers.map Prod.fst).mergeSort_perm pyStrLe,
      mergeSort_pyStrLe_sorted _, rfl⟩
  · intro st₂ hperm hmeta
    unfold commandDefinitions
    rw [mergeSort_pyStrLe_eq (st.commandHandlers.map Prod.fst)
      ((st₂.commandHandlers.map Prod.fst).mergeSort pyStrLe)
      (((st₂.commandHandlers.map Prod.fst).mergeSort_perm pyStrLe).trans hperm)
      (mergeSort_pyStrLe_sorted _)]
    exact List.map_congr_left fun n _ => by rw [hmeta]

/-- Witness for C8: two commands registered out of alphabetical order are
listed name-sorted. -/
theorem C8_witness :
    (handleCommand
       { commandHandlers := [("b", .returns .none), ("a", .returns .none)] }
       { command := .str "__list_commands", id := .str "1" }).trace
      = [.setContext (.str "1") Option.none,
         .response true (.str "1") (some (.list
           [.dict [("name", .str "a"), ("title", .str "A"),
                   ("expose_as", .list [.str "agent_tool"]),
                   ("slash_scope", .str "local")],
            .dict [("name", .str "b"), ("title", .str "B"),
                   ("expose_as", .list [.str "agent_tool"]),
                   ("slash_scope", .str "local")]])) Option.none,
         .clearContext] := by
  have hsort : ((["b","a"] : List String).mergeSort pyStrLe) = ["a","b"] :=
    (mergeSort_pyStrLe_eq ["b","a"] ["a","b"] (by decide) (by decide)).symm
  have hpl : definitionDicts (commandDefinitions
      { commandHandlers := [("b", .returns .none), ("a", .returns .none)] })
      = .ok [.dict [("name", .str "a"), ("title", .str "A"),
                    ("expose_as", .list [.str "agent_tool"]),
                    ("slash_scope", .str "local")],
             .dict [("name", .str "b"), ("title", .str "B"),
                    ("expose_as", .list [.str "agent_tool"]),
                    ("slash_scope", .str "local")]] := by
    unfold commandDefinitions
    rw [show (({ commandHandlers := [("b", .returns .none), ("a", .returns .none)] }
        : AgentState).commandHandlers.map Prod.fst) = ["b","a"] from rfl, hsort]
    simp [definitionDicts, CommandDefinition.toDict, CommandDefinition.normalized,
      deriveTitle, pyStrip, collapseSeps, camelSub, upperRunSplit, pySplit, sepChar,
      deriveTitleTransform, pyIsDigitStr, pyIsUpperStr, pyCapitalize, pyLower,
      normalizeScope, normalizeArguments, dedupExposures, ExposeAs.truthy,
      ExposeAs.iter, CommandExposure.value, argInputsAnyRequired,
      String.intercalate, String.intercalate.go, assocLookup]
  exact (C8_list_commands
    { commandHandlers := [("b", .returns .none), ("a", .returns .none)] }
    { command := .str "__list_commands", id := .str "1" } rfl _ hpl).1
